import Mathlib

/-!
Shallow embedding of the droll game engine (src/droll/world.py,
src/droll/action.py, src/droll/dice.py, src/droll/heroes/knight.py)
together with proofs of the specified properties.

Python namedtuples become Lean structures over Nat counts; `None` sentinels
become `Option`; exceptions become an explicit `Err` sum returned through
`Except`.  The stateful `randrange` callback is modelled by a list of
pending outcomes consumed left to right; a value that Python would use as an
out-of-range list index surfaces as `Err.indexError`, exactly where the
Python list subscript would raise.
-/

namespace Droll

/-- The six dungeon die faces, in the field order of `Dungeon`. -/
inductive DKind where
  | goblin | skeleton | ooze | chest | potion | dragon
deriving DecidableEq, Repr

/-- The six party die faces, in the field order of `Party`. -/
inductive PKind where
  | fighter | cleric | mage | thief | champion | scroll
deriving DecidableEq, Repr

/-- The ten treasure kinds, in the field order of `Treasure`. -/
inductive TKind where
  | sword | talisman | sceptre | tools | scroll | elixir | bait | portal | ring | scale
deriving DecidableEq, Repr

/-- Embeds the `Dungeon` namedtuple of world.py. -/
structure Dungeon where
  goblin : Nat
  skeleton : Nat
  ooze : Nat
  chest : Nat
  potion : Nat
  dragon : Nat
deriving DecidableEq, Repr

/-- Embeds the `Party` namedtuple of world.py. -/
structure Party where
  fighter : Nat
  cleric : Nat
  mage : Nat
  thief : Nat
  champion : Nat
  scroll : Nat
deriving DecidableEq, Repr

/-- Embeds the `Treasure` namedtuple of world.py (also used for the reserve). -/
structure Treasure where
  sword : Nat
  talisman : Nat
  sceptre : Nat
  tools : Nat
  scroll : Nat
  elixir : Nat
  bait : Nat
  portal : Nat
  ring : Nat
  scale : Nat
deriving DecidableEq, Repr

/-- Embeds the `World` namedtuple of world.py; Python `None` becomes `none`. -/
structure World where
  delve : Nat
  depth : Option Nat
  experience : Nat
  dungeon : Option Dungeon
  party : Option Party
  ability : Option Bool
  treasure : Treasure
  reserve : Treasure
deriving DecidableEq, Repr

/-- Python `getattr(dungeon, field)`. -/
def Dungeon.dget (d : Dungeon) : DKind → Nat
  | .goblin => d.goblin
  | .skeleton => d.skeleton
  | .ooze => d.ooze
  | .chest => d.chest
  | .potion => d.potion
  | .dragon => d.dragon

/-- Python `dungeon._replace(field=v)`. -/
def Dungeon.dset (d : Dungeon) : DKind → Nat → Dungeon
  | .goblin, v => { d with goblin := v }
  | .skeleton, v => { d with skeleton := v }
  | .ooze, v => { d with ooze := v }
  | .chest, v => { d with chest := v }
  | .potion, v => { d with potion := v }
  | .dragon, v => { d with dragon := v }

/-- Python `getattr(party, field)`. -/
def Party.pget (p : Party) : PKind → Nat
  | .fighter => p.fighter
  | .cleric => p.cleric
  | .mage => p.mage
  | .thief => p.thief
  | .champion => p.champion
  | .scroll => p.scroll

/-- Python `party._replace(field=v)`. -/
def Party.pset (p : Party) : PKind → Nat → Party
  | .fighter, v => { p with fighter := v }
  | .cleric, v => { p with cleric := v }
  | .mage, v => { p with mage := v }
  | .thief, v => { p with thief := v }
  | .champion, v => { p with champion := v }
  | .scroll, v => { p with scroll := v }

/-- Python `getattr(treasure, field)`. -/
def Treasure.tget (t : Treasure) : TKind → Nat
  | .sword => t.sword
  | .talisman => t.talisman
  | .sceptre => t.sceptre
  | .tools => t.tools
  | .scroll => t.scroll
  | .elixir => t.elixir
  | .bait => t.bait
  | .portal => t.portal
  | .ring => t.ring
  | .scale => t.scale

/-- Python `treasure._replace(field=v)`. -/
def Treasure.tset (t : Treasure) : TKind → Nat → Treasure
  | .sword, v => { t with sword := v }
  | .talisman, v => { t with talisman := v }
  | .sceptre, v => { t with sceptre := v }
  | .tools, v => { t with tools := v }
  | .scroll, v => { t with scroll := v }
  | .elixir, v => { t with elixir := v }
  | .bait, v => { t with bait := v }
  | .portal, v => { t with portal := v }
  | .ring, v => { t with ring := v }
  | .scale, v => { t with scale := v }

/-- Python `sum(dungeon)` over the six faces. -/
def dsum (d : Dungeon) : Nat :=
  d.goblin + d.skeleton + d.ooze + d.chest + d.potion + d.dragon

/-- Python `sum(party)` over the six faces. -/
def psum (p : Party) : Nat :=
  p.fighter + p.cleric + p.mage + p.thief + p.champion + p.scroll

/-- Python `sum(treasure)` over the ten kinds. -/
def tsum (t : Treasure) : Nat :=
  t.sword + t.talisman + t.sceptre + t.tools + t.scroll +
    t.elixir + t.bait + t.portal + t.ring + t.scale

/-- The Python exception kinds the engine can raise. -/
inductive Err where
  | droll (msg : String)
  | valueError (msg : String)
  | assertionError (msg : String)
  | indexError
  | attributeError
  | typeError
  | runtimeError
deriving DecidableEq, Repr

/-- Is this exception in the `DrollError` family? -/
def Err.isDroll : Err → Bool
  | .droll _ => true
  | _ => false

/-- The `randrange` callback, modelled as its list of pending outcomes. -/
abbrev Rng := List Nat

/-- Draw the next pending `randrange` outcome (0 once the list is spent). -/
def rngNext : Rng → Nat × Rng
  | [] => (0, [])
  | v :: rest => (v, rest)

/-- Results of a fallible engine step. -/
abbrev DR (α : Type) := Except Err α

/-- Embeds `world.defeated_monsters`: all non-dragon monsters defeated? -/
def defeated_monsters : Option Dungeon → Bool
  | none => true
  | some d => d.goblin + d.skeleton + d.ooze = 0

/-- Embeds `world.defeated_dungeon`: monsters defeated and dragon below 3? -/
def defeated_dungeon : Option Dungeon → Bool
  | none => true
  | some d => defeated_monsters (some d) && d.dragon < 3

/-- Embeds `world.blocking_dragon`: a dragon blocking further progress? -/
def blocking_dragon (d : Option Dungeon) : Bool :=
  defeated_monsters d && !(defeated_dungeon d)

/-- Fixed kind order used when the reserve is flattened for a draw. -/
def tkinds : List TKind :=
  [.sword, .talisman, .sceptre, .tools, .scroll, .elixir, .bait, .portal, .ring, .scale]

/-- Embeds the `_RESERVE` initial pool of world.py. -/
def RESERVE_INITIAL : Treasure :=
  { sword := 3, talisman := 3, sceptre := 3, tools := 3, scroll := 3,
    elixir := 3, bait := 4, portal := 4, ring := 4, scale := 6 }

/-- Embeds `TREASURE_INITIAL` of world.py. -/
def TREASURE_INITIAL : Treasure :=
  { sword := 0, talisman := 0, sceptre := 0, tools := 0, scroll := 0,
    elixir := 0, bait := 0, portal := 0, ring := 0, scale := 0 }

/-- Embeds `world.new_game`. -/
def new_game : World :=
  { delve := 0, depth := none, experience := 0, ability := none,
    dungeon := none, party := none,
    treasure := TREASURE_INITIAL, reserve := RESERVE_INITIAL }

/-- The flattened reserve sequence built inside `world._draw`. -/
def drawSeq (r : Treasure) : List TKind :=
  (tkinds.map (fun k => List.replicate (r.tget k) k)).flatten

/-- Embeds `world._draw`: pick one item from the flattened reserve. -/
def _draw (reserve : Treasure) (g : Rng) : DR (TKind × Rng) :=
  if (drawSeq reserve).length ≤ 1 then
    .error (.assertionError "Presently no items remaining in the reserve")
  else
    match (drawSeq reserve).get? (rngNext g).1 with
    | some k => .ok (k, (rngNext g).2)
    | none => .error .indexError

/-- Embeds `world.draw_treasure`: move one drawn item from reserve to treasure. -/
def draw_treasure (w : World) (g : Rng) : DR (World × Rng) := do
  let (drawn, g2) ← _draw w.reserve g
  let t := w.treasure.tset drawn (w.treasure.tget drawn + 1)
  let r := w.reserve.tset drawn (w.reserve.tget drawn - 1)
  .ok ({ w with treasure := t, reserve := r }, g2)

/-- Embeds `world.replace_treasure`: move one held item back to the reserve. -/
def replace_treasure (w : World) (item : TKind) : DR World :=
  if w.treasure.tget item = 0 then
    .error (.droll "item not in players treasure")
  else
    .ok { w with
      treasure := w.treasure.tset item (w.treasure.tget item - 1),
      reserve := w.reserve.tset item (w.reserve.tget item + 1) }

/-- Embeds `world.score`. -/
def score (w : World) : Nat :=
  w.experience + tsum w.treasure + w.treasure.portal + 2 * (w.treasure.scale / 2)

/-- Increment slot `i` of a face histogram, as `result[i] += 1` does. -/
def listInc : List Nat → Nat → List Nat
  | [], _ => []
  | x :: xs, 0 => (x + 1) :: xs
  | x :: xs, n + 1 => x :: listInc xs n

/-- Embeds `dice._roll` at `start=0`: roll `dice` dice over `faces` faces. -/
def _roll (dice faces : Nat) (g : Rng) : DR (List Nat × Rng) :=
  match dice with
  | 0 => .ok (List.replicate faces 0, g)
  | n + 1 =>
    if (rngNext g).1 < faces then
      match _roll n faces (rngNext g).2 with
      | .ok (l, g3) => .ok (listInc l (rngNext g).1, g3)
      | .error e => .error e
    else
      .error .indexError

/-- Rebuild a `Dungeon` from the six-slot histogram `_roll` produces. -/
def dungeonOfCounts (l : List Nat) : Dungeon :=
  { goblin := l.getD 0 0, skeleton := l.getD 1 0, ooze := l.getD 2 0,
    chest := l.getD 3 0, potion := l.getD 4 0, dragon := l.getD 5 0 }

/-- Rebuild a `Party` from the six-slot histogram `_roll` produces. -/
def partyOfCounts (l : List Nat) : Party :=
  { fighter := l.getD 0 0, cleric := l.getD 1 0, mage := l.getD 2 0,
    thief := l.getD 3 0, champion := l.getD 4 0, scroll := l.getD 5 0 }

/-- Embeds `dice.roll_dungeon`, dice count as the Python int it receives. -/
def roll_dungeon (dice : Int) (g : Rng) : DR (Dungeon × Rng) :=
  if dice < 1 then
    .error (.assertionError "At least one dice required")
  else
    match _roll dice.toNat 6 g with
    | .ok (l, g2) => .ok (dungeonOfCounts l, g2)
    | .error e => .error e

/-- Embeds `dice.roll_party` (also `world.roll_party`). -/
def roll_party (dice : Nat) (g : Rng) : DR (Party × Rng) :=
  match _roll dice 6 g with
  | .ok (l, g2) => .ok (partyOfCounts l, g2)
  | .error e => .error e

/-- Embeds src/droll/world.py `next_delve(world, randrange, transformer)`;
the `transformer` parameter is accepted there but never applied. -/
def next_delve (w : World) (g : Rng) (_transformer : Party → Party) :
    DR (World × Rng) :=
  if w.delve ≥ 3 then
    .error (.droll "At most three delves are permitted.")
  else
    match roll_party 7 g with
    | .ok (p, g2) =>
      .ok ({ w with delve := w.delve + 1, depth := some 0,
                    ability := some true, dungeon := none, party := some p }, g2)
    | .error e => .error e

/-- Embeds `world.apply_ring` at its default noun. -/
def apply_ring (w : World) : DR World :=
  if !(blocking_dragon w.dungeon) then
    .error (.droll "A dragon must be present to use a ring")
  else
    match replace_treasure w .ring with
    | .ok w2 =>
      match w2.dungeon with
      | some d => .ok { w2 with dungeon := some { d with dragon := 0 } }
      | none => .error .attributeError
    | .error e => .error e

/-- The all-zero dungeon record `Dungeon(*([0] * 6))`. -/
def zeroDungeon : Dungeon :=
  { goblin := 0, skeleton := 0, ooze := 0, chest := 0, potion := 0, dragon := 0 }

/-- Embeds `world.apply_portal` at its default noun. -/
def apply_portal (w : World) : DR World :=
  if defeated_dungeon w.dungeon then
    .error (.droll "No need to apply portal when dungeon clear")
  else
    match replace_treasure w .portal with
    | .ok w2 => .ok { w2 with dungeon := some zeroDungeon }
    | .error e => .error e

/-- Python `0 if world.dungeon is None else world.dungeon.dragon`. -/
def prior_dragons (w : World) : Nat :=
  match w.dungeon with
  | none => 0
  | some d => d.dragon

/-- Python `dungeon._replace(dragon=dungeon.dragon + prior_dragons)`. -/
def carry_dragons (rolled : Dungeon) (n : Nat) : Dungeon :=
  { rolled with dragon := rolled.dragon + n }

/-- The depth-advance tail of `world.next_dungeon`, after any ring use. -/
def next_dungeon_roll (w2 : World) (g : Rng) : DR (World × Rng) :=
  if w2.depth.getD 0 + 1 > 10 then
    .error (.droll "The maximum depth is 10")
  else
    match roll_dungeon (min ((7 : Int) - prior_dragons w2)
        ((w2.depth.getD 0 + 1 : Nat) : Int)) g with
    | .ok (rolled, g2) =>
      .ok ({ w2 with
               depth := some (w2.depth.getD 0 + 1),
               dungeon := some (carry_dragons rolled (prior_dragons w2)) }, g2)
    | .error e => .error e

/-- Embeds `world.next_dungeon`. -/
def next_dungeon (w : World) (g : Rng) : DR (World × Rng) :=
  if !(defeated_monsters w.dungeon) then
    .error (.droll "Must defeat enemies to proceed to next dungeon.")
  else if !(defeated_dungeon w.dungeon) then
    match apply_ring w with
    | .ok x => next_dungeon_roll x g
    | .error _ =>
      .error (.droll "Dragon remains but a ring of invisibility is not in hand.")
  else
    next_dungeon_roll w g

/-- The final state update of `world.retire`, after any ring/portal use;
Python adding `None` depth to the experience is its `TypeError`. -/
def retire_finish (w2 : World) : DR World :=
  match w2.depth with
  | some d =>
    .ok { w2 with depth := some 0, experience := w2.experience + d, dungeon := none }
  | none => .error .typeError

/-- Embeds `world.retire`, including the ring/portal fallback chain. -/
def retire (w : World) : DR World :=
  if w.depth = some 0 then
    .error (.droll "Descend at least once prior to retiring.")
  else if !(defeated_monsters w.dungeon) then
    match apply_portal w with
    | .ok x => retire_finish x
    | .error _ => .error (.droll "Monsters remain but no town portal in hand.")
  else if blocking_dragon w.dungeon then
    match apply_ring w with
    | .ok x => retire_finish x
    | .error _ =>
      match apply_portal w with
      | .ok x => retire_finish x
      | .error _ =>
        .error (.droll "Dragon remains but neither a ring nor a portal in hand.")
  else
    retire_finish w

/-- Embeds `world.retreat`. -/
def retreat (w : World) : DR World :=
  if w.depth = some 0 then
    .error (.droll "Descend at least once prior to retreating.")
  else if defeated_dungeon w.dungeon then
    .error (.droll "Why retreat when you could instead retire?")
  else
    .ok { w with depth := some 0, dungeon := none }

/-- Embeds `action.__decrement_hero`. -/
def decrement_hero (party : Option Party) (hero : PKind) : DR Party :=
  match party with
  | none => .error (.droll "No party currently active.")
  | some p =>
    if p.pget hero = 0 then
      .error (.droll "Require at least one hero")
    else
      .ok (p.pset hero (p.pget hero - 1))

/-- Embeds `action.__increment_hero`. -/
def increment_hero (party : Option Party) (hero : PKind) : DR Party :=
  match party with
  | none => .error (.droll "No party currently active.")
  | some p => .ok (p.pset hero (p.pget hero + 1))

/-- Embeds `action.__decrement_target`; note its `ValueError`. -/
def decrement_target (dungeon : Option Dungeon) (target : DKind) : DR Dungeon :=
  match dungeon with
  | none => .error (.droll "No dungeon currently active.")
  | some d =>
    if d.dget target = 0 then
      .error (.valueError "Require at least one target")
    else
      .ok (d.dset target (d.dget target - 1))

/-- Embeds `action.__eliminate_targets`. -/
def eliminate_targets (dungeon : Option Dungeon) (target : DKind) : DR Dungeon :=
  match dungeon with
  | none => .error (.droll "No dungeon currently active.")
  | some d =>
    if d.dget target = 0 then
      .error (.droll "Require at least one target")
    else
      .ok (d.dset target 0)

/-- Embeds `action.defeat_one`. -/
def defeat_one (game : World) (_g : Rng) (hero : PKind) (target : DKind) :
    DR World := do
  let p ← decrement_hero game.party hero
  let d ← decrement_target game.dungeon target
  .ok { game with party := some p, dungeon := some d }

/-- Embeds `action.defeat_all`. -/
def defeat_all (game : World) (_g : Rng) (hero : PKind) (target : DKind) :
    DR World := do
  let p ← decrement_hero game.party hero
  let d ← eliminate_targets game.dungeon target
  .ok { game with party := some p, dungeon := some d }

/-- Embeds `action.defeat_all_plus_additional`. -/
def defeat_all_plus_additional
    (game : World) (g : Rng) (hero : PKind) (target : DKind)
    (additional : List DKind) : DR World := do
  let game2 ← defeat_all game g hero target
  if defeated_monsters game2.dungeon then
    if additional ≠ [] then
      .error (.droll "Additional given but no monsters left.")
    else
      .ok game2
  else if additional.length ≠ 1 then
    .error (.droll "One additional target okay but more provided.")
  else do
    let p ← increment_hero game2.party hero
    defeat_one { game2 with party := some p } g hero (additional.getD 0 .goblin)

/-- Embeds `action.open_one` at its default `_after_monsters=True`. -/
def open_one (game : World) (g : Rng) (hero : PKind) (target : DKind) :
    DR (World × Rng) := do
  if !(defeated_monsters game.dungeon) then
    .error (.droll "Monsters must be defeated before opening.")
  else do
    let (game2, g2) ← draw_treasure game g
    let p ← decrement_hero game.party hero
    let d ← decrement_target game.dungeon target
    .ok ({ game2 with party := some p, dungeon := some d }, g2)

/-- The `for _ in range(howmany)` treasure-draw loop in `action.open_all`. -/
def drawN : Nat → World → Rng → DR (World × Rng)
  | 0, w, g => .ok (w, g)
  | n + 1, w, g =>
    match draw_treasure w g with
    | .ok (w2, g2) => drawN n w2 g2
    | .error e => .error e

/-- Embeds `action.open_all` at its default `_after_monsters=True`. -/
def open_all (game : World) (g : Rng) (hero : PKind) (target : DKind) :
    DR (World × Rng) := do
  if !(defeated_monsters game.dungeon) then
    .error (.droll "Monsters must be defeated before opening.")
  else
    match game.dungeon with
    | none => .error .attributeError
    | some dgn =>
      if dgn.dget target = 0 then
        .error (.droll "At least 1 target required.")
      else do
        let (game2, g2) ← drawN (dgn.dget target) game g
        let p ← decrement_hero game2.party hero
        let d ← eliminate_targets game2.dungeon target
        .ok ({ game2 with party := some p, dungeon := some d }, g2)

/-- Embeds `action.quaff` at its default `_after_monsters=True`. -/
def quaff (game : World) (_g : Rng) (hero : PKind) (target : DKind)
    (revivable : List PKind) : DR World := do
  match game.dungeon with
  | none => .error .attributeError
  | some dgn =>
    let howmany := dgn.dget target
    if howmany = 0 then
      .error (.droll "At least 1 target required.")
    else if revivable.length ≠ howmany then
      .error (.droll "Require exactly howmany to revive.")
    else if !(defeated_monsters game.dungeon) then
      .error (.droll "Monsters must be defeated before quaffing.")
    else do
      let p0 ← decrement_hero game.party hero
      let p := revivable.foldl (fun q r => q.pset r (q.pget r + 1)) p0
      let d ← eliminate_targets game.dungeon target
      .ok { game with party := some p, dungeon := some d }

/-- The target-removal loop of `action.reroll`. -/
def reduceTargets (dungeon : Option Dungeon) : List DKind → DR (Option Dungeon)
  | [] => .ok dungeon
  | t :: ts =>
    if t = .potion ∨ t = .dragon then
      .error (.droll "target cannot be re-rolled")
    else
      match decrement_target dungeon t with
      | .ok d => reduceTargets (some d) ts
      | .error e => .error e

/-- Field-wise sum of two dungeons, as `map(operator.add, ...)` builds it. -/
def daddD (a b : Dungeon) : Dungeon :=
  { goblin := a.goblin + b.goblin, skeleton := a.skeleton + b.skeleton,
    ooze := a.ooze + b.ooze, chest := a.chest + b.chest,
    potion := a.potion + b.potion, dragon := a.dragon + b.dragon }

/-- Embeds `action.reroll`. -/
def reroll (game : World) (g : Rng) (hero : PKind) (targets : List DKind) :
    DR (World × Rng) := do
  if targets = [] then
    .error (.droll "At least one target must be re-rolled.")
  else do
    let reduced ← reduceTargets game.dungeon targets
    match roll_dungeon (targets.length : Int) g with
    | .ok (increased, g2) => do
      let p ← decrement_hero game.party hero
      match reduced with
      | some red =>
        .ok ({ game with party := some p, dungeon := some (daddD red increased) }, g2)
      | none => .error .attributeError
    | .error e => .error e

/-- Embeds `action.defeat_dragon_heroes` at its base defaults. -/
def defeat_dragon_heroes (heroes : List PKind) : DR Bool :=
  if heroes.contains .scroll then
    .error (.droll "Heroes scroll cannot defeat a dragon.")
  else if heroes.length ≠ 3 then
    .error (.droll "Exactly 3 heroes must be specified.")
  else if heroes.dedup.length ≠ 3 then
    .error (.droll "The 3 heroes must all be distinct.")
  else
    .ok true

/-- The sequential `__decrement_hero` loop over the other heroes. -/
def decHeroes (p : Party) : List PKind → DR Party
  | [] => .ok p
  | h :: hs =>
    match decrement_hero (some p) h with
    | .ok p2 => decHeroes p2 hs
    | .error e => .error e

/-- Embeds `action.defeat_dragon` with a pluggable hero validator. -/
def defeat_dragon (validator : List PKind → DR Bool)
    (game : World) (g : Rng) (hero : PKind) (target : DKind)
    (others : List PKind) : DR (World × Rng) := do
  match game.dungeon with
  | none => .error .attributeError
  | some dgn =>
    if dgn.dragon < 3 then
      .error (.droll "Enemy only comes at length 3.")
    else if !(defeated_monsters game.dungeon) then
      .error (.droll "Enemy only comes after all others defeated.")
    else do
      let p0 ← decrement_hero game.party hero
      let p ← decHeroes p0 others
      let ok ← validator (hero :: others)
      if !ok then
        .error .runtimeError
      else do
        let (game2, g2) ← draw_treasure game g
        let d ← eliminate_targets game.dungeon target
        .ok ({ game2 with experience := game.experience + 1,
                          party := some p, dungeon := some d }, g2)

/-- The enemy-summing and enemy-zeroing loop of `action.bait_dragon`. -/
def bait_counts (dgn : Option Dungeon) : Nat × Option Dungeon :=
  match dgn with
  | none => (0, none)
  | some d =>
    (d.goblin + d.skeleton + d.ooze,
     some { d with goblin := 0, skeleton := 0, ooze := 0 })

/-- The dragon-increment tail of `action.bait_dragon`. -/
def bait_finish (game2 : World) (target : DKind) : DR World :=
  if (bait_counts game2.dungeon).1 = 0 then
    .error (.droll "At least one enemy required for bait.")
  else
    match (bait_counts game2.dungeon).2 with
    | some d2 =>
      .ok { game2 with
              dungeon := some (d2.dset target
                (d2.dget target + (bait_counts game2.dungeon).1)) }
    | none => .error (.droll "At least one enemy required for bait.")

/-- Embeds `action.bait_dragon`; `requireTreasure` is `_require_treasure`. -/
def bait_dragon (game : World) (_g : Rng) (noun : TKind)
    (target : Option DKind) (requireTreasure : Bool := true) : DR World :=
  if target.getD .dragon ≠ .dragon then
    .error (.droll "Cannot bait that target.")
  else
    match (if requireTreasure then replace_treasure game noun else .ok game) with
    | .ok game2 => bait_finish game2 (target.getD .dragon)
    | .error e => .error e

/-- Embeds `action.elixir`. -/
def elixir (game : World) (_g : Rng) (noun : TKind) (target : PKind) :
    DR World := do
  let game2 ← replace_treasure game noun
  let p ← increment_hero game2.party target
  .ok { game2 with party := some p }

/-- Embeds `action.consume_ability`. -/
def consume_ability (game : World) : DR World :=
  if game.ability ≠ some true then
    .error (.droll "Ability not available for use.")
  else
    .ok { game with ability := some false }

/-- Embeds `action.nop_ability`. -/
def nop_ability (game : World) (_g : Rng) (_noun : TKind)
    (target : Option PKind) : DR World :=
  if target ≠ none then
    .error (.droll "No targets accepted.")
  else
    consume_ability game

/-- Embeds `heroes/knight.py knight_roll_party`: scrolls become champions. -/
def knight_roll_party (count : Nat) (g : Rng) : DR (Party × Rng) :=
  match roll_party count g with
  | .ok (p, g2) =>
    .ok ({ p with scroll := 0, champion := p.champion + p.scroll }, g2)
  | .error e => .error e

/-- The scroll-to-champion rewrite as a `Party → Party` transformer, the
shape of argument `next_delve` declares for its third parameter. -/
def knightTransform (p : Party) : Party :=
  { p with scroll := 0, champion := p.champion + p.scroll }

/-- Modelled from the spec: section 4.3 `nextDelve(world, rollPartyFn,
randRange)` — the behaviour src/droll/world.py `next_delve` is missing,
in which the supplied party-rolling function produces the new party as
`rollPartyFn(7, randRange)`; this is also the calling convention used by
game.py, shell.py and tests/test_world.py. -/
def nextDelve_spec (w : World) (rollPartyFn : Nat → Rng → DR (Party × Rng))
    (g : Rng) : DR (World × Rng) :=
  if w.delve ≥ 3 then
    .error (.droll "At most three delves are permitted.")
  else
    match rollPartyFn 7 g with
    | .ok (p, g2) =>
      .ok ({ w with delve := w.delve + 1, depth := some 0,
                    ability := some true, dungeon := none, party := some p }, g2)
    | .error e => .error e

/-- Both pools move in lock step: the field-wise totals are untouched. -/
def Conserves (w w2 : World) : Prop :=
  ∀ k, w2.treasure.tget k + w2.reserve.tget k
       = w.treasure.tget k + w.reserve.tget k

/-- Worlds reachable from `new_game` by successful engine operations,
covering the lifecycle functions and every action.py transition. -/
inductive Reachable : World → Prop where
  | init : Reachable new_game
  | step_next_delve {w g tr w2 g2} : Reachable w →
      next_delve w g tr = .ok (w2, g2) → Reachable w2
  | step_next_dungeon {w g w2 g2} : Reachable w →
      next_dungeon w g = .ok (w2, g2) → Reachable w2
  | step_retire {w w2} : Reachable w → retire w = .ok w2 → Reachable w2
  | step_retreat {w w2} : Reachable w → retreat w = .ok w2 → Reachable w2
  | step_draw {w g w2 g2} : Reachable w →
      draw_treasure w g = .ok (w2, g2) → Reachable w2
  | step_replace {w k w2} : Reachable w →
      replace_treasure w k = .ok w2 → Reachable w2
  | step_ring {w w2} : Reachable w → apply_ring w = .ok w2 → Reachable w2
  | step_portal {w w2} : Reachable w → apply_portal w = .ok w2 → Reachable w2
  | step_defeat_one {w g h t w2} : Reachable w →
      defeat_one w g h t = .ok w2 → Reachable w2
  | step_defeat_all {w g h t w2} : Reachable w →
      defeat_all w g h t = .ok w2 → Reachable w2
  | step_defeat_all_plus {w g h t ad w2} : Reachable w →
      defeat_all_plus_additional w g h t ad = .ok w2 → Reachable w2
  | step_open_one {w g h t w2 g2} : Reachable w →
      open_one w g h t = .ok (w2, g2) → Reachable w2
  | step_open_all {w g h t w2 g2} : Reachable w →
      open_all w g h t = .ok (w2, g2) → Reachable w2
  | step_quaff {w g h t rs w2} : Reachable w →
      quaff w g h t rs = .ok w2 → Reachable w2
  | step_reroll {w g h ts w2 g2} : Reachable w →
      reroll w g h ts = .ok (w2, g2) → Reachable w2
  | step_defeat_dragon {va w g h t os w2 g2} : Reachable w →
      defeat_dragon va w g h t os = .ok (w2, g2) → Reachable w2
  | step_bait {w g n t rq w2} : Reachable w →
      bait_dragon w g n t rq = .ok w2 → Reachable w2
  | step_elixir {w g n t w2} : Reachable w →
      elixir w g n t = .ok w2 → Reachable w2
  | step_consume_ability {w w2} : Reachable w →
      consume_ability w = .ok w2 → Reachable w2
  | step_nop_ability {w g n t w2} : Reachable w →
      nop_ability w g n t = .ok w2 → Reachable w2

/-- Is this exception a Python `ValueError`? -/
def Err.isValue : Err → Bool
  | .valueError _ => true
  | _ => false

/-- Is this exception a Python `AssertionError`? -/
def Err.isAssert : Err → Bool
  | .assertionError _ => true
  | _ => false

/-- A sample party holding two dice of every kind. -/
def P0 : Party :=
  { fighter := 2, cleric := 2, mage := 2, thief := 2, champion := 2, scroll := 2 }

/-- A dungeon that is only a length-3 dragon. -/
def D3 : Dungeon :=
  { goblin := 0, skeleton := 0, ooze := 0, chest := 0, potion := 0, dragon := 3 }

/-- A mid-delve world with an active empty dungeon and a full party. -/
def CW3 : World :=
  { new_game with
      delve := 1, depth := some 1, ability := some true,
      dungeon := some zeroDungeon, party := some P0 }

/-- A mid-delve world facing a blocking dragon while holding one ring. -/
def CW4 : World :=
  { new_game with
      delve := 1, depth := some 1, ability := some true,
      dungeon := some D3, party := some P0,
      treasure := { TREASURE_INITIAL with ring := 1 },
      reserve := { RESERVE_INITIAL with ring := 3 } }

/-- A mid-delve world with a partial (length-2) dragon. -/
def CW4b : World :=
  { new_game with
      delve := 1, depth := some 1, ability := some true,
      dungeon := some { D3 with dragon := 2 }, party := some P0 }

/-- The world `next_dungeon CW4b [5, 5]` produces. -/
def RES4b : World :=
  { CW4b with depth := some 2, dungeon := some { D3 with dragon := 4 } }

/-- A sample world with some experience and treasure. -/
def W6a : World :=
  { new_game with
      experience := 3,
      treasure := { TREASURE_INITIAL with portal := 1, scale := 3 } }

/-- As `W6a` but differing in dungeon, party, depth, delve, ability, reserve. -/
def W6b : World :=
  { W6a with
      delve := 2, depth := some 4, ability := some true,
      dungeon := some D3, party := some P0,
      reserve := TREASURE_INITIAL }

/-- A world whose reserve has been completely drained. -/
def WEmpty : World :=
  { new_game with reserve := TREASURE_INITIAL }

/-- A world sitting at depth zero. -/
def WDepth0 : World := { new_game with depth := some 0 }

/-- A world whose reserve holds exactly one item. -/
def WOne : World :=
  { new_game with reserve := { TREASURE_INITIAL with scale := 1 } }

/-- The party `quaff` leaves behind: acting hero spent, revivals added. -/
def quaffParty (p : Party) (hk : PKind) (rs : List PKind) : Party :=
  rs.foldl (fun q r => q.pset r (q.pget r + 1)) (p.pset hk (p.pget hk - 1))

/-- The world a successful `quaff` returns. -/
def quaffResult (w : World) (d : Dungeon) (p : Party) (hk : PKind)
    (rs : List PKind) : World :=
  { w with
      party := some (quaffParty p hk rs),
      dungeon := some (d.dset .potion 0) }

/-- A dungeon holding two potions and nothing else. -/
def D7 : Dungeon := { zeroDungeon with potion := 2 }

/-- A mid-delve world with two potions up and a full party. -/
def CW7 : World :=
  { new_game with
      delve := 1, depth := some 1, ability := some true,
      dungeon := some D7, party := some P0 }

/-- The party after the three dragon-slaying heroes are spent in order. -/
def DDParty (p : Party) (h0 o1 o2 : PKind) : Party :=
  let p1 := p.pset h0 (p.pget h0 - 1)
  let p2 := p1.pset o1 (p1.pget o1 - 1)
  p2.pset o2 (p2.pget o2 - 1)

/-- The world a successful base-validator `defeat_dragon` returns, for
drawn treasure kind `k`. -/
def DDResult (w : World) (d : Dungeon) (p : Party) (h0 o1 o2 : PKind)
    (k : TKind) : World :=
  { w with
      experience := w.experience + 1,
      party := some (DDParty p h0 o1 o2),
      dungeon := some (d.dset .dragon 0),
      treasure := w.treasure.tset k (w.treasure.tget k + 1),
      reserve := w.reserve.tset k (w.reserve.tget k - 1) }

/-- The distinct-heroes and still-available conditions of `defeat_dragon`. -/
def DDCond (d : Dungeon) (p : Party) (h0 o1 o2 : PKind) : Prop :=
  3 ≤ d.dragon ∧ d.goblin = 0 ∧ d.skeleton = 0 ∧ d.ooze = 0 ∧
  h0 ≠ .scroll ∧ o1 ≠ .scroll ∧ o2 ≠ .scroll ∧
  h0 ≠ o1 ∧ h0 ≠ o2 ∧ o1 ≠ o2 ∧
  1 ≤ p.pget h0 ∧ 1 ≤ p.pget o1 ∧ 1 ≤ p.pget o2

/-- A dragon-fight world whose reserve has been completely drained. -/
def CWD : World :=
  { new_game with
      delve := 1, depth := some 1, ability := some true,
      dungeon := some D3, party := some P0,
      reserve := TREASURE_INITIAL }

/-- A dragon-fight world with the full reserve. -/
def CWDD : World :=
  { new_game with
      delve := 1, depth := some 1, ability := some true,
      dungeon := some D3, party := some P0 }

/-- A dungeon with one ooze and one chest. -/
def D10 : Dungeon :=
  { zeroDungeon with ooze := 1, chest := 1 }

/-- A mid-delve world for the re-roll scenario. -/
def CW10 : World :=
  { new_game with
      delve := 1, depth := some 1, ability := some true,
      dungeon := some D10, party := some P0 }

/-- The world `reroll CW10 [0, 1] scroll [ooze, chest]` produces. -/
def RES10 : World :=
  { CW10 with
      party := some { P0 with scroll := 1 },
      dungeon := some { zeroDungeon with goblin := 1, skeleton := 1 } }

theorem tget_tset (t : Treasure) (k k' : TKind) (v : Nat) :
    (t.tset k v).tget k' = if k' = k then v else t.tget k' := by
  cases k <;> cases k' <;> simp [Treasure.tget, Treasure.tset]

theorem pget_pset (p : Party) (k k' : PKind) (v : Nat) :
    (p.pset k v).pget k' = if k' = k then v else p.pget k' := by
  cases k <;> cases k' <;> simp [Party.pget, Party.pset]

theorem dget_dset (d : Dungeon) (k k' : DKind) (v : Nat) :
    (d.dset k v).dget k' = if k' = k then v else d.dget k' := by
  cases k <;> cases k' <;> simp [Dungeon.dget, Dungeon.dset]

theorem tset_tget_self (t : Treasure) (k : TKind) : t.tset k (t.tget k) = t := by
  cases k <;> simp [Treasure.tget, Treasure.tset]

theorem Conserves.rfl {w : World} : Conserves w w := fun _ => Eq.refl _

theorem Conserves.trans {w1 w2 w3 : World}
    (h1 : Conserves w1 w2) (h2 : Conserves w2 w3) : Conserves w1 w3 :=
  fun k => (h2 k).trans (h1 k)

/-- Every kind appearing in the flattened reserve has a positive count. -/
theorem tget_pos_of_mem_drawSeq {r : Treasure} {k : TKind}
    (h : k ∈ drawSeq r) : 1 ≤ r.tget k := by
  unfold drawSeq at h
  rw [List.mem_flatten] at h
  obtain ⟨l, hl, hk⟩ := h
  rw [List.mem_map] at hl
  obtain ⟨k2, _, rfl⟩ := hl
  rw [List.mem_replicate] at hk
  obtain ⟨hne, rfl⟩ := hk
  omega

/-- A successful `_draw` only yields kinds still present in the reserve. -/
theorem _draw_mem {r : Treasure} {g : Rng} {k : TKind} {g2 : Rng}
    (h : _draw r g = .ok (k, g2)) : 1 ≤ r.tget k := by
  unfold _draw at h
  split at h
  · exact absurd h (by simp)
  · split at h
    next k2 heq =>
      obtain ⟨rfl, rfl⟩ : k2 = k ∧ (rngNext g).2 = g2 := by
        simpa using h
      rw [List.get?_eq_getElem?] at heq
      obtain ⟨hl, rfl⟩ := List.getElem?_eq_some_iff.mp heq
      exact tget_pos_of_mem_drawSeq (List.getElem_mem hl)
    next => exact absurd h (by simp)

theorem draw_treasure_conserves {w w2 : World} {g g2 : Rng}
    (h : draw_treasure w g = .ok (w2, g2)) : Conserves w w2 := by
  unfold draw_treasure at h
  cases hd : _draw w.reserve g with
  | error e => rw [hd] at h; exact absurd h (by simp [Bind.bind, Except.bind])
  | ok pr =>
    obtain ⟨k0, g0⟩ := pr
    rw [hd] at h
    simp only [Bind.bind, Except.bind, Except.ok.injEq, Prod.mk.injEq] at h
    obtain ⟨hw, -⟩ := h
    have hpos := _draw_mem hd
    intro k
    rw [← hw]
    simp only [tget_tset]
    by_cases hk : k = k0
    · subst hk; simp; omega
    · simp [hk]

theorem replace_treasure_conserves {w w2 : World} {k : TKind}
    (h : replace_treasure w k = .ok w2) : Conserves w w2 := by
  unfold replace_treasure at h
  split at h
  · exact absurd h (by simp)
  · next hpos =>
    obtain rfl : _ = w2 := by simpa using h
    intro k2
    simp only [tget_tset]
    by_cases hk : k2 = k
    · subst hk; simp; omega
    · simp [hk]

theorem drawN_conserves {n : Nat} {w w2 : World} {g g2 : Rng}
    (h : drawN n w g = .ok (w2, g2)) : Conserves w w2 := by
  induction n generalizing w g with
  | zero =>
    obtain ⟨rfl, rfl⟩ : w = w2 ∧ g = g2 := by simpa [drawN] using h
    exact Conserves.rfl
  | succ n ih =>
    unfold drawN at h
    cases hd : draw_treasure w g with
    | error e => rw [hd] at h; exact absurd h (by simp)
    | ok pr =>
      obtain ⟨wm, gm⟩ := pr
      rw [hd] at h
      exact (draw_treasure_conserves hd).trans (ih h)

theorem conserves_of_same {w w2 : World}
    (ht : w2.treasure = w.treasure) (hr : w2.reserve = w.reserve) :
    Conserves w w2 := by
  intro k; rw [ht, hr]

theorem next_delve_conserves {w w2 : World} {g g2 : Rng} {tr : Party → Party}
    (h : next_delve w g tr = .ok (w2, g2)) : Conserves w w2 := by
  unfold next_delve at h
  split at h
  · exact absurd h (by simp)
  · split at h
    · next p g3 heq =>
      obtain ⟨hw, -⟩ : _ = w2 ∧ g3 = g2 := by simpa using h
      exact conserves_of_same (by rw [← hw]) (by rw [← hw])
    · exact absurd h (by simp)

theorem retreat_conserves {w w2 : World}
    (h : retreat w = .ok w2) : Conserves w w2 := by
  unfold retreat at h
  split at h
  · exact absurd h (by simp)
  · split at h
    · exact absurd h (by simp)
    · obtain hw : _ = w2 := by simpa using h
      exact conserves_of_same (by rw [← hw]) (by rw [← hw])

theorem consume_ability_conserves {w w2 : World}
    (h : consume_ability w = .ok w2) : Conserves w w2 := by
  unfold consume_ability at h
  split at h
  · exact absurd h (by simp)
  · obtain hw : _ = w2 := by simpa using h
    exact conserves_of_same (by rw [← hw]) (by rw [← hw])

theorem nop_ability_conserves {w w2 : World} {g : Rng} {n : TKind}
    {t : Option PKind} (h : nop_ability w g n t = .ok w2) : Conserves w w2 := by
  unfold nop_ability at h
  split at h
  · exact absurd h (by simp)
  · exact consume_ability_conserves h

theorem defeat_one_conserves {w w2 : World} {g : Rng} {hk : PKind} {t : DKind}
    (h : defeat_one w g hk t = .ok w2) : Conserves w w2 := by
  unfold defeat_one at h
  cases hp : decrement_hero w.party hk with
  | error e => rw [hp] at h; exact absurd h (by simp [Bind.bind, Except.bind])
  | ok p =>
    rw [hp] at h
    cases hd : decrement_target w.dungeon t with
    | error e => rw [hd] at h; exact absurd h (by simp [Bind.bind, Except.bind])
    | ok d =>
      rw [hd] at h
      obtain hw : _ = w2 := by
        simpa [Bind.bind, Except.bind] using h
      exact conserves_of_same (by rw [← hw]) (by rw [← hw])

theorem defeat_all_conserves {w w2 : World} {g : Rng} {hk : PKind} {t : DKind}
    (h : defeat_all w g hk t = .ok w2) : Conserves w w2 := by
  unfold defeat_all at h
  cases hp : decrement_hero w.party hk with
  | error e => rw [hp] at h; exact absurd h (by simp [Bind.bind, Except.bind])
  | ok p =>
    rw [hp] at h
    cases hd : eliminate_targets w.dungeon t with
    | error e => rw [hd] at h; exact absurd h (by simp [Bind.bind, Except.bind])
    | ok d =>
      rw [hd] at h
      obtain hw : _ = w2 := by
        simpa [Bind.bind, Except.bind] using h
      exact conserves_of_same (by rw [← hw]) (by rw [← hw])

theorem defeat_all_plus_conserves {w w2 : World} {g : Rng} {hk : PKind}
    {t : DKind} {ad : List DKind}
    (h : defeat_all_plus_additional w g hk t ad = .ok w2) : Conserves w w2 := by
  unfold defeat_all_plus_additional at h
  cases ha : defeat_all w g hk t with
  | error e => rw [ha] at h; exact absurd h (by simp [Bind.bind, Except.bind])
  | ok wm =>
    rw [ha] at h
    simp only [Bind.bind, Except.bind] at h
    have hc1 := defeat_all_conserves ha
    split at h
    · split at h
      · exact absurd h (by simp)
      · obtain rfl : wm = w2 := by simpa using h
        exact hc1
    · split at h
      · exact absurd h (by simp)
      · cases hi : increment_hero wm.party hk with
        | error e => rw [hi] at h; exact absurd h (by simp)
        | ok p =>
          rw [hi] at h
          simp only [Except.bind] at h
          refine hc1.trans ?_
          have := defeat_one_conserves h
          intro k
          simpa using this k

theorem quaff_conserves {w w2 : World} {g : Rng} {hk : PKind} {t : DKind}
    {rs : List PKind} (h : quaff w g hk t rs = .ok w2) : Conserves w w2 := by
  unfold quaff at h
  split at h
  · exact absurd h (by simp)
  · next dgn hdgn =>
    simp only [Bind.bind, Except.bind] at h
    by_cases h1 : dgn.dget t = 0
    · simp [h1] at h
    · by_cases h2 : rs.length = dgn.dget t
      · simp only [h1, h2, if_false, ite_self, Ne, not_true_eq_false] at h
        split at h
        · exact absurd h (by simp)
        · cases hp : decrement_hero w.party hk with
          | error e => rw [hp] at h; exact absurd h (by simp)
          | ok p0 =>
            rw [hp] at h
            cases hd : eliminate_targets w.dungeon t with
            | error e => rw [hd] at h; exact absurd h (by simp)
            | ok d =>
              rw [hd] at h
              obtain hw : _ = w2 := by simpa using h
              exact conserves_of_same (by rw [← hw]) (by rw [← hw])
      · simp [h1, h2] at h

theorem reroll_conserves {w w2 : World} {g g2 : Rng} {hk : PKind}
    {ts : List DKind} (h : reroll w g hk ts = .ok (w2, g2)) : Conserves w w2 := by
  unfold reroll at h
  split at h
  · exact absurd h (by simp)
  · cases hr : reduceTargets w.dungeon ts with
    | error e => rw [hr] at h; exact absurd h (by simp [Bind.bind, Except.bind])
    | ok red =>
      rw [hr] at h
      simp only [Bind.bind, Except.bind] at h
      split at h
      · next rolled g3 heq =>
        cases hp : decrement_hero w.party hk with
        | error e => rw [hp] at h; exact absurd h (by simp)
        | ok p =>
          rw [hp] at h
          simp only [Except.bind] at h
          split at h
          · next redd =>
            obtain ⟨hw, -⟩ : _ = w2 ∧ g3 = g2 := by simpa using h
            exact conserves_of_same (by rw [← hw]) (by rw [← hw])
          · exact absurd h (by simp)
      · exact absurd h (by simp)

theorem apply_ring_conserves {w w2 : World}
    (h : apply_ring w = .ok w2) : Conserves w w2 := by
  unfold apply_ring at h
  split at h
  · exact absurd h (by simp)
  · cases hr : replace_treasure w .ring with
    | error e => rw [hr] at h; exact absurd h (by simp)
    | ok wm =>
      rw [hr] at h
      simp only [] at h
      cases hdg : wm.dungeon with
      | none => rw [hdg] at h; exact absurd h (by simp)
      | some d =>
        rw [hdg] at h
        obtain hw : _ = w2 := by simpa using h
        refine (replace_treasure_conserves hr).trans ?_
        exact conserves_of_same (by rw [← hw]) (by rw [← hw])

theorem apply_portal_conserves {w w2 : World}
    (h : apply_portal w = .ok w2) : Conserves w w2 := by
  unfold apply_portal at h
  split at h
  · exact absurd h (by simp)
  · cases hr : replace_treasure w .portal with
    | error e => rw [hr] at h; exact absurd h (by simp)
    | ok wm =>
      rw [hr] at h
      obtain hw : _ = w2 := by simpa using h
      refine (replace_treasure_conserves hr).trans ?_
      exact conserves_of_same (by rw [← hw]) (by rw [← hw])

theorem retire_finish_conserves {wm w2 : World}
    (h : retire_finish wm = .ok w2) : Conserves wm w2 := by
  unfold retire_finish at h
  cases hd : wm.depth with
  | none => rw [hd] at h; exact absurd h (by simp)
  | some d =>
    rw [hd] at h
    obtain hw : _ = w2 := by simpa using h
    exact conserves_of_same (by rw [← hw]) (by rw [← hw])

theorem retire_conserves {w w2 : World}
    (h : retire w = .ok w2) : Conserves w w2 := by
  unfold retire at h
  split at h
  · exact absurd h (by simp)
  · split at h
    · cases hp : apply_portal w with
      | error e => rw [hp] at h; exact absurd h (by simp)
      | ok x =>
        rw [hp] at h
        exact (apply_portal_conserves hp).trans (retire_finish_conserves h)
    · split at h
      · cases hr : apply_ring w with
        | error e =>
          rw [hr] at h
          cases hp : apply_portal w with
          | error e2 => rw [hp] at h; exact absurd h (by simp)
          | ok x =>
            rw [hp] at h
            exact (apply_portal_conserves hp).trans (retire_finish_conserves h)
        | ok x =>
          rw [hr] at h
          exact (apply_ring_conserves hr).trans (retire_finish_conserves h)
      · exact Conserves.rfl.trans (retire_finish_conserves h)

theorem next_dungeon_roll_conserves {wm w2 : World} {g g2 : Rng}
    (h : next_dungeon_roll wm g = .ok (w2, g2)) : Conserves wm w2 := by
  unfold next_dungeon_roll at h
  split at h
  · exact absurd h (by simp)
  · split at h
    · next rolled g3 heq =>
      obtain ⟨hw, -⟩ : _ = w2 ∧ g3 = g2 := by simpa using h
      exact conserves_of_same (by rw [← hw]) (by rw [← hw])
    · exact absurd h (by simp)

theorem next_dungeon_conserves {w w2 : World} {g g2 : Rng}
    (h : next_dungeon w g = .ok (w2, g2)) : Conserves w w2 := by
  unfold next_dungeon at h
  split at h
  · exact absurd h (by simp)
  · split at h
    · split at h
      · next x hx =>
        exact (apply_ring_conserves hx).trans (next_dungeon_roll_conserves h)
      · exact absurd h (by simp)
    · exact next_dungeon_roll_conserves h

theorem open_one_conserves {w w2 : World} {g g2 : Rng} {hk : PKind} {t : DKind}
    (h : open_one w g hk t = .ok (w2, g2)) : Conserves w w2 := by
  unfold open_one at h
  split at h
  · exact absurd h (by simp)
  · simp only [Bind.bind, Except.bind] at h
    cases hd : draw_treasure w g with
    | error e => rw [hd] at h; exact absurd h (by simp)
    | ok pr =>
      obtain ⟨wm, gm⟩ := pr
      rw [hd] at h
      cases hp : decrement_hero w.party hk with
      | error e => rw [hp] at h; exact absurd h (by simp)
      | ok p =>
        rw [hp] at h
        cases ht : decrement_target w.dungeon t with
        | error e => rw [ht] at h; exact absurd h (by simp)
        | ok d =>
          rw [ht] at h
          obtain ⟨hw, -⟩ : _ = w2 ∧ gm = g2 := by simpa using h
          refine (draw_treasure_conserves hd).trans ?_
          exact conserves_of_same (by rw [← hw]) (by rw [← hw])

theorem open_all_conserves {w w2 : World} {g g2 : Rng} {hk : PKind} {t : DKind}
    (h : open_all w g hk t = .ok (w2, g2)) : Conserves w w2 := by
  unfold open_all at h
  split at h
  · exact absurd h (by simp)
  · split at h
    · exact absurd h (by simp)
    · next dgn hdgn =>
      split at h
      · exact absurd h (by simp)
      · simp only [Bind.bind, Except.bind] at h
        cases hd : drawN (dgn.dget t) w g with
        | error e => rw [hd] at h; exact absurd h (by simp)
        | ok pr =>
          obtain ⟨wm, gm⟩ := pr
          rw [hd] at h
          simp only [] at h
          cases hp : decrement_hero wm.party hk with
          | error e => rw [hp] at h; exact absurd h (by simp)
          | ok p =>
            rw [hp] at h
            cases ht : eliminate_targets wm.dungeon t with
            | error e => rw [ht] at h; exact absurd h (by simp)
            | ok d =>
              rw [ht] at h
              obtain ⟨hw, -⟩ : _ = w2 ∧ gm = g2 := by simpa using h
              refine (drawN_conserves hd).trans ?_
              exact conserves_of_same (by rw [← hw]) (by rw [← hw])

theorem defeat_dragon_conserves {va : List PKind → DR Bool} {w w2 : World}
    {g g2 : Rng} {hk : PKind} {t : DKind} {os : List PKind}
    (h : defeat_dragon va w g hk t os = .ok (w2, g2)) : Conserves w w2 := by
  unfold defeat_dragon at h
  split at h
  · exact absurd h (by simp)
  · next dgn hdgn =>
    split at h
    · exact absurd h (by simp)
    · split at h
      · exact absurd h (by simp)
      · simp only [Bind.bind, Except.bind] at h
        cases hp : decrement_hero w.party hk with
        | error e => rw [hp] at h; exact absurd h (by simp)
        | ok p0 =>
          rw [hp] at h
          simp only [] at h
          cases hq : decHeroes p0 os with
          | error e => rw [hq] at h; exact absurd h (by simp)
          | ok p =>
            rw [hq] at h
            simp only [] at h
            cases hv : va (hk :: os) with
            | error e => rw [hv] at h; exact absurd h (by simp)
            | ok b =>
              rw [hv] at h
              simp only [] at h
              split at h
              · exact absurd h (by simp)
              · cases hd : draw_treasure w g with
                | error e => rw [hd] at h; exact absurd h (by simp)
                | ok pr =>
                  obtain ⟨wm, gm⟩ := pr
                  rw [hd] at h
                  cases ht : eliminate_targets w.dungeon t with
                  | error e => rw [ht] at h; exact absurd h (by simp)
                  | ok d =>
                    rw [ht] at h
                    obtain ⟨hw, -⟩ : _ = w2 ∧ gm = g2 := by simpa using h
                    refine (draw_treasure_conserves hd).trans ?_
                    exact conserves_of_same (by rw [← hw]) (by rw [← hw])

theorem bait_finish_conserves {wm w2 : World} {t : DKind}
    (h : bait_finish wm t = .ok w2) : Conserves wm w2 := by
  unfold bait_finish at h
  split at h
  · exact absurd h (by simp)
  · split at h
    · next d2 heq =>
      obtain hw : _ = w2 := by simpa using h
      exact conserves_of_same (by rw [← hw]) (by rw [← hw])
    · exact absurd h (by simp)

theorem bait_dragon_conserves {w w2 : World} {g : Rng} {n : TKind}
    {t : Option DKind} {rq : Bool}
    (h : bait_dragon w g n t rq = .ok w2) : Conserves w w2 := by
  unfold bait_dragon at h
  split at h
  · exact absurd h (by simp)
  · cases hrq : rq with
    | true =>
      subst hrq
      simp only [if_true] at h
      cases hr : replace_treasure w n with
      | error e => rw [hr] at h; exact absurd h (by simp)
      | ok wm =>
        rw [hr] at h
        simp only [] at h
        exact (replace_treasure_conserves hr).trans (bait_finish_conserves h)
    | false =>
      subst hrq
      simp only [Bool.false_eq_true, if_false] at h
      exact Conserves.rfl.trans (bait_finish_conserves h)

theorem elixir_conserves {w w2 : World} {g : Rng} {n : TKind} {t : PKind}
    (h : elixir w g n t = .ok w2) : Conserves w w2 := by
  unfold elixir at h
  simp only [Bind.bind, Except.bind] at h
  cases hr : replace_treasure w n with
  | error e => rw [hr] at h; exact absurd h (by simp)
  | ok wm =>
    rw [hr] at h
    simp only [] at h
    cases hp : increment_hero wm.party t with
    | error e => rw [hp] at h; exact absurd h (by simp)
    | ok p =>
      rw [hp] at h
      obtain hw : _ = w2 := by simpa using h
      refine (replace_treasure_conserves hr).trans ?_
      exact conserves_of_same (by rw [← hw]) (by rw [← hw])

theorem conserves_init {w w2 : World}
    (hf : ∀ k, w.treasure.tget k + w.reserve.tget k = RESERVE_INITIAL.tget k)
    (hc : Conserves w w2) :
    ∀ k, w2.treasure.tget k + w2.reserve.tget k = RESERVE_INITIAL.tget k :=
  fun k => (hc k).trans (hf k)

/-- C1: every world reachable from `new_game` by engine operations keeps
the field-wise sum of treasure and reserve equal to the initial reserve
record, and hence the total `sum(treasure) + sum(reserve)` equal to 36. -/
theorem treasure_reserve_conservation {w : World} (h : Reachable w) :
    (∀ k, w.treasure.tget k + w.reserve.tget k = RESERVE_INITIAL.tget k) ∧
    tsum w.treasure + tsum w.reserve = 36 := by
  have hf : ∀ k, w.treasure.tget k + w.reserve.tget k = RESERVE_INITIAL.tget k := by
    induction h with
    | init => intro k; cases k <;> rfl
    | step_next_delve hr hs ih => exact conserves_init ih (next_delve_conserves hs)
    | step_next_dungeon hr hs ih => exact conserves_init ih (next_dungeon_conserves hs)
    | step_retire hr hs ih => exact conserves_init ih (retire_conserves hs)
    | step_retreat hr hs ih => exact conserves_init ih (retreat_conserves hs)
    | step_draw hr hs ih => exact conserves_init ih (draw_treasure_conserves hs)
    | step_replace hr hs ih => exact conserves_init ih (replace_treasure_conserves hs)
    | step_ring hr hs ih => exact conserves_init ih (apply_ring_conserves hs)
    | step_portal hr hs ih => exact conserves_init ih (apply_portal_conserves hs)
    | step_defeat_one hr hs ih => exact conserves_init ih (defeat_one_conserves hs)
    | step_defeat_all hr hs ih => exact conserves_init ih (defeat_all_conserves hs)
    | step_defeat_all_plus hr hs ih => exact conserves_init ih (defeat_all_plus_conserves hs)
    | step_open_one hr hs ih => exact conserves_init ih (open_one_conserves hs)
    | step_open_all hr hs ih => exact conserves_init ih (open_all_conserves hs)
    | step_quaff hr hs ih => exact conserves_init ih (quaff_conserves hs)
    | step_reroll hr hs ih => exact conserves_init ih (reroll_conserves hs)
    | step_defeat_dragon hr hs ih => exact conserves_init ih (defeat_dragon_conserves hs)
    | step_bait hr hs ih => exact conserves_init ih (bait_dragon_conserves hs)
    | step_elixir hr hs ih => exact conserves_init ih (elixir_conserves hs)
    | step_consume_ability hr hs ih => exact conserves_init ih (consume_ability_conserves hs)
    | step_nop_ability hr hs ih => exact conserves_init ih (nop_ability_conserves hs)
  refine ⟨hf, ?_⟩
  have h1 := hf .sword
  have h2 := hf .talisman
  have h3 := hf .sceptre
  have h4 := hf .tools
  have h5 := hf .scroll
  have h6 := hf .elixir
  have h7 := hf .bait
  have h8 := hf .portal
  have h9 := hf .ring
  have h10 := hf .scale
  simp only [Treasure.tget, RESERVE_INITIAL] at h1 h2 h3 h4 h5 h6 h7 h8 h9 h10
  unfold tsum
  omega

/-- Witness for C1: the conservation theorem applied to `new_game`. -/
theorem treasure_reserve_conservation_witness :
    (∀ k, new_game.treasure.tget k + new_game.reserve.tget k
      = RESERVE_INITIAL.tget k) ∧
    tsum new_game.treasure + tsum new_game.reserve = 36 :=
  treasure_reserve_conservation Reachable.init

/-- C6: `score` is exactly the experience/treasure formula of world.py and
is therefore a function of the experience and treasure fields alone. -/
theorem score_formula_and_inputs :
    (∀ w : World, score w
      = w.experience + tsum w.treasure + w.treasure.portal
        + 2 * (w.treasure.scale / 2)) ∧
    (∀ w w2 : World, w.experience = w2.experience → w.treasure = w2.treasure →
      score w = score w2) := by
  constructor
  · intro w; rfl
  · intro w w2 he ht; unfold score; rw [he, ht]

/-- Witness for C6 at two worlds differing only outside experience/treasure. -/
theorem score_formula_witness :
    score W6a = W6a.experience + tsum W6a.treasure + W6a.treasure.portal
      + 2 * (W6a.treasure.scale / 2) ∧ score W6a = score W6b :=
  ⟨score_formula_and_inputs.1 W6a, score_formula_and_inputs.2 W6a W6b rfl rfl⟩

theorem drawSeq_length (r : Treasure) : (drawSeq r).length = tsum r := by
  simp [drawSeq, tkinds, tsum, Treasure.tget]
  omega

/-- A successful draw moves one unit of some still-present kind. -/
theorem draw_treasure_ok (w : World) (v : Nat) (rest : Rng)
    (h2 : 2 ≤ tsum w.reserve) (hv : v < tsum w.reserve) :
    ∃ k, 1 ≤ w.reserve.tget k ∧
      draw_treasure w (v :: rest)
        = .ok ({ w with
                   treasure := w.treasure.tset k (w.treasure.tget k + 1),
                   reserve := w.reserve.tset k (w.reserve.tget k - 1) }, rest) := by
  have hlen : v < (drawSeq w.reserve).length := by rw [drawSeq_length]; exact hv
  refine ⟨(drawSeq w.reserve).get ⟨v, hlen⟩,
    tget_pos_of_mem_drawSeq (List.get_mem _ _ _), ?_⟩
  unfold draw_treasure _draw
  rw [if_neg (by rw [drawSeq_length]; omega)]
  have hget : (drawSeq w.reserve).get? (rngNext (v :: rest)).1
      = some ((drawSeq w.reserve).get ⟨v, hlen⟩) := by
    show (drawSeq w.reserve).get? v = _
    rw [List.get?_eq_get hlen]
  rw [hget]
  rfl

/-- An exhausted (or singleton) reserve makes the draw assert. -/
theorem draw_treasure_exhausted (w : World) (g : Rng)
    (hle : tsum w.reserve ≤ 1) :
    draw_treasure w g
      = .error (.assertionError "Presently no items remaining in the reserve") := by
  unfold draw_treasure _draw
  rw [if_pos (by rw [drawSeq_length]; exact hle)]
  rfl

/-- C8: with at most one reserve item left drawing always asserts; with at
least two and an in-range index it moves exactly one unit of the drawn
kind from reserve to treasure and changes nothing else. -/
theorem draw_treasure_boundary (w : World) (v : Nat) (rest : Rng) :
    (tsum w.reserve ≤ 1 →
      draw_treasure w (v :: rest)
        = .error (.assertionError "Presently no items remaining in the reserve")) ∧
    (2 ≤ tsum w.reserve → v < tsum w.reserve →
      ∃ k, 1 ≤ w.reserve.tget k ∧
        draw_treasure w (v :: rest)
          = .ok ({ w with
                     treasure := w.treasure.tset k (w.treasure.tget k + 1),
                     reserve := w.reserve.tset k (w.reserve.tget k - 1) }, rest)) :=
  ⟨draw_treasure_exhausted w (v :: rest), draw_treasure_ok w v rest⟩

/-- Witness for C8: the two boundary behaviours at concrete worlds. -/
theorem draw_treasure_boundary_witness :
    (draw_treasure WOne [0]
      = .error (.assertionError "Presently no items remaining in the reserve")) ∧
    (∃ k, 1 ≤ new_game.reserve.tget k ∧
      draw_treasure new_game [0]
        = .ok ({ new_game with
                   treasure := new_game.treasure.tset k (new_game.treasure.tget k + 1),
                   reserve := new_game.reserve.tset k (new_game.reserve.tget k - 1) }, [])) :=
  ⟨(draw_treasure_boundary WOne 0 []).1 (by decide),
   (draw_treasure_boundary new_game 0 []).2 (by decide) (by decide)⟩

theorem tset_tset (t : Treasure) (k : TKind) (a b : Nat) :
    (t.tset k a).tset k b = t.tset k b := by
  cases k <;> simp [Treasure.tset]

/-- C9: a successful draw has `replace_treasure` at the drawn kind (the
unique kind whose held count grew) as an exact inverse. -/
theorem draw_replace_round_trip (w : World) (v : Nat) (rest : Rng)
    (h2 : 2 ≤ tsum w.reserve) (hv : v < tsum w.reserve) :
    ∃ w2 k, draw_treasure w (v :: rest) = .ok (w2, rest) ∧
      w2.treasure.tget k = w.treasure.tget k + 1 ∧
      (∀ j, j ≠ k → w2.treasure.tget j = w.treasure.tget j) ∧
      replace_treasure w2 k = .ok w := by
  obtain ⟨k, hk, heq⟩ := draw_treasure_ok w v rest h2 hv
  refine ⟨_, k, heq, ?_, ?_, ?_⟩
  · simp [tget_tset]
  · intro j hj; simp [tget_tset, hj]
  · have ht : (w.treasure.tset k (w.treasure.tget k + 1)).tset k
        ((w.treasure.tset k (w.treasure.tget k + 1)).tget k - 1) = w.treasure := by
      rw [tget_tset, if_pos (Eq.refl k), tset_tset, Nat.add_sub_cancel,
        tset_tget_self]
    have hr : (w.reserve.tset k (w.reserve.tget k - 1)).tset k
        ((w.reserve.tset k (w.reserve.tget k - 1)).tget k + 1) = w.reserve := by
      rw [tget_tset, if_pos (Eq.refl k), tset_tset, Nat.sub_add_cancel hk,
        tset_tget_self]
    unfold replace_treasure
    rw [if_neg (by rw [tget_tset, if_pos (Eq.refl k)]; omega)]
    rw [ht, hr]

/-- Witness for C9: the round trip at `new_game` with index 0. -/
theorem draw_replace_round_trip_witness :
    ∃ w2 k, draw_treasure new_game [0] = .ok (w2, []) ∧
      w2.treasure.tget k = new_game.treasure.tget k + 1 ∧
      (∀ j, j ≠ k → w2.treasure.tget j = new_game.treasure.tget j) ∧
      replace_treasure w2 k = .ok new_game :=
  draw_replace_round_trip new_game 0 [] (by decide) (by decide)

/-- Counterexample to C4: with a blocking length-3 dragon and a ring in
hand, `next_dungeon` succeeds and the new dungeon has dragon count 0. -/
theorem next_dungeon_dragon_counterexample :
    Except.map (fun p : World × Rng => prior_dragons p.1)
        (next_dungeon CW4 [0, 0]) = .ok 0
    ∧ prior_dragons CW4 = 3 :=
  ⟨rfl, rfl⟩

theorem next_dungeon_roll_dragons {wm w2 : World} {g g2 : Rng}
    (h : next_dungeon_roll wm g = .ok (w2, g2)) :
    prior_dragons wm ≤ prior_dragons w2 := by
  unfold next_dungeon_roll at h
  split at h
  · exact absurd h (by simp)
  · split at h
    · next rolled g3 heq =>
      obtain ⟨hw, -⟩ : _ = w2 ∧ g3 = g2 := by simpa using h
      rw [← hw]
      simp [prior_dragons, carry_dragons]
    · exact absurd h (by simp)

/-- C4 amended: when the prior dungeon is already defeated (no ring is
consumed), descending never decreases the dragon face count; when a
blocking dragon is bypassed with a ring it is first zeroed, so the count
can drop. -/
theorem next_dungeon_dragon_persistence (w : World) (g : Rng) {w2 : World}
    {g2 : Rng} (hdef : defeated_dungeon w.dungeon = true)
    (h : next_dungeon w g = .ok (w2, g2)) :
    prior_dragons w ≤ prior_dragons w2 := by
  unfold next_dungeon at h
  split at h
  · exact absurd h (by simp)
  · rw [hdef] at h
    simp only [Bool.not_true, Bool.false_eq_true, if_false] at h
    exact next_dungeon_roll_dragons h

/-- Witness for C4 amended: a partial dragon carries forward and grows. -/
theorem next_dungeon_dragon_persistence_witness :
    prior_dragons CW4b ≤ prior_dragons RES4b :=
  @next_dungeon_dragon_persistence CW4b [5, 5] RES4b [] (by decide) rfl

/-- C5: the source `next_delve` ignores its party-rolling argument: at the
same seven scroll-face outcomes it returns a party of seven scrolls, while
the specified behaviour (used by game.py, shell.py and tests/test_world.py)
with `knight_roll_party` yields zero scrolls and seven champions. -/
theorem next_delve_ignores_roll_function :
    (Except.map (fun p : World × Rng => Option.map Party.scroll p.1.party)
        (next_delve new_game [5, 5, 5, 5, 5, 5, 5] knightTransform)
      = .ok (some 7)) ∧
    (Except.map (fun p : World × Rng => Option.map Party.scroll p.1.party)
        (nextDelve_spec new_game knight_roll_party [5, 5, 5, 5, 5, 5, 5])
      = .ok (some 0)) ∧
    (Except.map (fun p : World × Rng => Option.map Party.champion p.1.party)
        (nextDelve_spec new_game knight_roll_party [5, 5, 5, 5, 5, 5, 5])
      = .ok (some 7)) :=
  ⟨rfl, rfl, rfl⟩

/-- Full evaluation of `quaff` over an active dungeon with potions. -/
theorem quaff_eval (w : World) (g : Rng) (hk : PKind) (rs : List PKind)
    (d : Dungeon) (p : Party)
    (hd : w.dungeon = some d) (hp : w.party = some p) (hpot : 1 ≤ d.potion) :
    quaff w g hk .potion rs =
      if rs.length ≠ d.potion then
        .error (.droll "Require exactly howmany to revive.")
      else if !(defeated_monsters w.dungeon) then
        .error (.droll "Monsters must be defeated before quaffing.")
      else if p.pget hk = 0 then
        .error (.droll "Require at least one hero")
      else
        .ok (quaffResult w d p hk rs) := by
  unfold quaff
  rw [hd]
  simp only [Dungeon.dget]
  rw [if_neg (show ¬ d.potion = 0 by omega)]
  by_cases h1 : rs.length = d.potion
  · by_cases h2 : (!defeated_monsters (some d)) = true
    · simp [h1, h2]
    · simp only [Bind.bind, Except.bind]
      unfold decrement_hero
      rw [hp]
      simp only []
      by_cases h3 : p.pget hk = 0
      · simp [h1, h2, h3]
      · unfold eliminate_targets
        simp only [Dungeon.dget]
        rw [if_neg (show ¬ d.potion = 0 by omega)]
        simp [h1, h2, h3, quaffResult, quaffParty]
  · simp [h1]

/-- Counts after the revival fold: one increment per occurrence in `rs`. -/
theorem quaffParty_count (p : Party) (hk : PKind) (rs : List PKind) (j : PKind) :
    (quaffParty p hk rs).pget j
      = (if j = hk then p.pget hk - 1 else p.pget j) + rs.count j := by
  unfold quaffParty
  have main : ∀ (q : Party) (l : List PKind) (j : PKind),
      (l.foldl (fun q r => q.pset r (q.pget r + 1)) q).pget j
        = q.pget j + l.count j := by
    intro q l
    induction l generalizing q with
    | nil => intro j; simp
    | cons r ls ih =>
      intro j
      rw [List.foldl_cons, ih, pget_pset, List.count_cons]
      by_cases hj : j = r
      · simp only [hj, if_pos rfl]
        simp
        omega
      · simp only [if_neg hj]
        simp [hj, Ne.symm hj]
  rw [main, pget_pset]

/-- C7: with an active dungeon holding `p ≥ 1` potions and an active party,
`quaff` succeeds exactly when the revival list has length `p`, all
non-dragon monsters are defeated and the acting hero is available; on
success the acting hero is spent, each named revival kind (repetitions and
scrolls included) gains one die per mention, the potion face is zeroed and
every other field is unchanged. -/
theorem quaff_spec (w : World) (g : Rng) (hk : PKind) (rs : List PKind)
    (d : Dungeon) (p : Party)
    (hd : w.dungeon = some d) (hp : w.party = some p) (hpot : 1 ≤ d.potion) :
    (rs.length = d.potion ∧ defeated_monsters w.dungeon = true ∧ 1 ≤ p.pget hk →
      quaff w g hk .potion rs = .ok (quaffResult w d p hk rs)) ∧
    (∀ w2, quaff w g hk .potion rs = .ok w2 →
      (rs.length = d.potion ∧ defeated_monsters w.dungeon = true ∧ 1 ≤ p.pget hk)
        ∧ w2 = quaffResult w d p hk rs) ∧
    (∀ j, (quaffParty p hk rs).pget j
      = (if j = hk then p.pget hk - 1 else p.pget j) + rs.count j) := by
  rw [quaff_eval w g hk rs d p hd hp hpot]
  refine ⟨?_, ?_, quaffParty_count p hk rs⟩
  · rintro ⟨h1, h2, h3⟩
    rw [if_neg (by omega), if_neg (by rw [h2]; simp), if_neg (by omega)]
  · intro w2 h
    by_cases h1 : rs.length = d.potion
    · rw [if_neg (show ¬ rs.length ≠ d.potion by omega)] at h
      by_cases h2 : (!defeated_monsters w.dungeon) = true
      · rw [if_pos h2] at h
        exact absurd h (by simp)
      · rw [if_neg h2] at h
        have h2x : defeated_monsters w.dungeon = true := by
          revert h2; cases defeated_monsters w.dungeon <;> simp
        by_cases h3 : p.pget hk = 0
        · rw [if_pos h3] at h
          exact absurd h (by simp)
        · rw [if_neg h3] at h
          obtain rfl : _ = w2 := by simpa using h
          exact ⟨⟨h1, h2x, by omega⟩, Eq.refl _⟩
    · rw [if_pos (show rs.length ≠ d.potion from h1)] at h
      exact absurd h (by simp)

/-- Witness for C7: quaffing two potions with a cleric, reviving a scroll
and a fighter. -/
theorem quaff_spec_witness :
    quaff CW7 [] PKind.cleric DKind.potion [PKind.scroll, PKind.fighter]
      = .ok (quaffResult CW7 D7 P0 PKind.cleric [PKind.scroll, PKind.fighter]) :=
  (quaff_spec CW7 [] .cleric [.scroll, .fighter] D7 P0 rfl rfl (by decide)).1
    ⟨rfl, rfl, by decide⟩

theorem listInc_length (l : List Nat) (v : Nat) :
    (listInc l v).length = l.length := by
  induction l generalizing v with
  | nil => rfl
  | cons x xs ih =>
    cases v with
    | zero => rfl
    | succ n => simp [listInc, ih]

theorem listInc_sum {l : List Nat} {v : Nat} (hv : v < l.length) :
    (listInc l v).sum = l.sum + 1 := by
  induction l generalizing v with
  | nil => simp at hv
  | cons x xs ih =>
    cases v with
    | zero => simp [listInc]; omega
    | succ n =>
      have := ih (v := n) (by simpa using hv)
      simp [listInc, this]
      omega

/-- A successful `_roll` yields a histogram of the right total and width. -/
theorem _roll_ok {dice faces : Nat} {g : Rng} {l : List Nat} {g2 : Rng}
    (h : _roll dice faces g = .ok (l, g2)) : l.sum = dice ∧ l.length = faces := by
  induction dice generalizing g l with
  | zero =>
    obtain ⟨rfl, rfl⟩ : List.replicate faces 0 = l ∧ g = g2 := by
      simpa [_roll] using h
    exact ⟨by simp, by simp⟩
  | succ n ih =>
    unfold _roll at h
    split at h
    · next hv =>
      cases hr : _roll n faces (rngNext g).2 with
      | error e => rw [hr] at h; exact absurd h (by simp)
      | ok pr =>
        obtain ⟨l0, g3⟩ := pr
        rw [hr] at h
        obtain ⟨rfl, rfl⟩ : listInc l0 (rngNext g).1 = l ∧ g3 = g2 := by
          simpa using h
        obtain ⟨hs, hl⟩ := ih hr
        refine ⟨?_, by rw [listInc_length, hl]⟩
        rw [listInc_sum (by rw [hl]; exact hv), hs]
    · exact absurd h (by simp)

theorem dsum_ofCounts {l : List Nat} (hl : l.length = 6) :
    dsum (dungeonOfCounts l) = l.sum := by
  rcases l with _ | ⟨a, _ | ⟨b, _ | ⟨c, _ | ⟨x, _ | ⟨e, _ | ⟨f, _ | ⟨p, q⟩⟩⟩⟩⟩⟩⟩ <;>
    simp_all [dsum, dungeonOfCounts]
  omega

/-- A successful `roll_dungeon` yields a dungeon of `dice.toNat` faces. -/
theorem roll_dungeon_ok {dice : Int} {g : Rng} {dgn : Dungeon} {g2 : Rng}
    (h : roll_dungeon dice g = .ok (dgn, g2)) : dsum dgn = dice.toNat := by
  unfold roll_dungeon at h
  split at h
  · exact absurd h (by simp)
  · split at h
    · next l g3 heq =>
      obtain ⟨rfl, rfl⟩ : dungeonOfCounts l = dgn ∧ g3 = g2 := by simpa using h
      obtain ⟨hs, hl⟩ := _roll_ok heq
      rw [dsum_ofCounts hl, hs]
    · exact absurd h (by simp)

theorem dsum_dset_dec {d : Dungeon} {t : DKind} (hpos : 1 ≤ d.dget t) :
    dsum (d.dset t (d.dget t - 1)) + 1 = dsum d := by
  cases t <;> simp [dsum, Dungeon.dget, Dungeon.dset] at hpos ⊢ <;> omega

/-- Inversion for a successful target decrement over an active dungeon. -/
theorem decrement_target_some_ok {d0 : Dungeon} {t : DKind} {d : Dungeon}
    (h : decrement_target (some d0) t = .ok d) :
    1 ≤ d0.dget t ∧ d = d0.dset t (d0.dget t - 1) := by
  unfold decrement_target at h
  simp only [] at h
  split at h
  · exact absurd h (by simp)
  · next hz =>
    refine ⟨by omega, ?_⟩
    obtain heq : _ = d := by simpa using h
    exact heq.symm

/-- Each removed re-roll target lowers the dungeon total by exactly one. -/
theorem reduceTargets_sum {ts : List DKind} {d0 : Dungeon} {res : Option Dungeon}
    (h : reduceTargets (some d0) ts = .ok res) :
    ∃ dr, res = some dr ∧ dsum dr + ts.length = dsum d0 := by
  induction ts generalizing d0 with
  | nil =>
    obtain rfl : some d0 = res := by simpa [reduceTargets] using h
    exact ⟨d0, rfl, by simp⟩
  | cons t ts ih =>
    unfold reduceTargets at h
    split at h
    · exact absurd h (by simp)
    · cases hdec : decrement_target (some d0) t with
      | error e => rw [hdec] at h; exact absurd h (by simp)
      | ok dd =>
        rw [hdec] at h
        obtain ⟨hpos, rfl⟩ := decrement_target_some_ok hdec
        obtain ⟨dr, hres, hsum⟩ := ih h
        refine ⟨dr, hres, ?_⟩
        have h2 := dsum_dset_dec hpos
        simp only [List.length_cons]
        omega

theorem psum_pset_dec {p : Party} {hk : PKind} (hpos : 1 ≤ p.pget hk) :
    psum (p.pset hk (p.pget hk - 1)) + 1 = psum p := by
  cases hk <;> simp [psum, Party.pget, Party.pset] at hpos ⊢ <;> omega

/-- A successful hero decrement lowers the party total by exactly one. -/
theorem decrement_hero_psum {pt : Option Party} {hk : PKind} {p2 : Party}
    (h : decrement_hero pt hk = .ok p2) :
    ∃ p, pt = some p ∧ psum p2 + 1 = psum p := by
  unfold decrement_hero at h
  split at h
  · exact absurd h (by simp)
  · next p =>
    split at h
    · exact absurd h (by simp)
    · next hz =>
      obtain rfl : _ = p2 := by simpa using h
      exact ⟨p, rfl, psum_pset_dec (by omega)⟩

theorem dsum_daddD (a b : Dungeon) : dsum (daddD a b) = dsum a + dsum b := by
  simp [dsum, daddD]; omega

/-- C10: every successful re-roll leaves the dungeon die total unchanged
and spends exactly one party die (the acting hero). -/
theorem reroll_preserves_counts {w : World} {g g2 : Rng} {hk : PKind}
    {ts : List DKind} {w2 : World}
    (h : reroll w g hk ts = .ok (w2, g2)) :
    ∃ d0 p0 d2 p2, w.dungeon = some d0 ∧ w.party = some p0 ∧
      w2.dungeon = some d2 ∧ w2.party = some p2 ∧
      dsum d2 = dsum d0 ∧ psum p2 + 1 = psum p0 := by
  unfold reroll at h
  split at h
  · exact absurd h (by simp)
  · next hne =>
    simp only [Bind.bind, Except.bind] at h
    cases hred : reduceTargets w.dungeon ts with
    | error e => rw [hred] at h; exact absurd h (by simp)
    | ok red =>
      rw [hred] at h
      simp only [] at h
      split at h
      · next rolled g3 heq =>
        cases hp : decrement_hero w.party hk with
        | error e => rw [hp] at h; exact absurd h (by simp)
        | ok p2 =>
          rw [hp] at h
          simp only [] at h
          split at h
          · next redd =>
            obtain ⟨hw, -⟩ : _ = w2 ∧ g3 = g2 := by simpa using h
            obtain ⟨p0, hp0, hps⟩ := decrement_hero_psum hp
            have hdg : ∃ d0, w.dungeon = some d0 := by
              cases hwd : w.dungeon with
              | none =>
                cases ts with
                | nil => exact absurd rfl hne
                | cons t ts2 =>
                  rw [hwd] at hred
                  unfold reduceTargets at hred
                  split at hred
                  · exact absurd hred (by simp)
                  · unfold decrement_target at hred
                    simp only [] at hred
                    exact absurd hred (by simp)
              | some d0 => exact ⟨d0, rfl⟩
            obtain ⟨d0, hd0⟩ := hdg
            rw [hd0] at hred
            obtain ⟨dr, hdr, hdsum⟩ := reduceTargets_sum hred
            obtain rfl : redd = dr := Option.some.inj hdr
            have hroll := roll_dungeon_ok heq
            refine ⟨d0, p0, daddD redd rolled, p2, hd0, hp0, ?_, ?_, ?_, hps⟩
            · rw [← hw]
            · rw [← hw]
            · rw [dsum_daddD, hroll]
              have hlen : ((ts.length : Int)).toNat = ts.length := by simp
              omega
          · exact absurd h (by simp)
      · exact absurd h (by simp)

/-- Witness for C10: re-rolling an ooze and a chest with a scroll. -/
theorem reroll_preserves_counts_witness :
    ∃ d0 p0 d2 p2, CW10.dungeon = some d0 ∧ CW10.party = some p0 ∧
      RES10.dungeon = some d2 ∧ RES10.party = some p2 ∧
      dsum d2 = dsum d0 ∧ psum p2 + 1 = psum p0 :=
  @reroll_preserves_counts CW10 [0, 1] [] PKind.scroll
    [DKind.ooze, DKind.chest] RES10 rfl

theorem decrement_hero_err {pt : Option Party} {hk : PKind} {e : Err}
    (h : decrement_hero pt hk = .error e) : e.isDroll = true := by
  unfold decrement_hero at h
  split at h
  · obtain rfl : _ = e := by simpa using h
    rfl
  · split at h
    · obtain rfl : _ = e := by simpa using h
      rfl
    · exact absurd h (by simp)

theorem increment_hero_err {pt : Option Party} {hk : PKind} {e : Err}
    (h : increment_hero pt hk = .error e) : e.isDroll = true := by
  unfold increment_hero at h
  split at h
  · obtain rfl : _ = e := by simpa using h
    rfl
  · exact absurd h (by simp)

theorem decrement_target_err {dg : Option Dungeon} {t : DKind} {e : Err}
    (h : decrement_target dg t = .error e) :
    e.isDroll = true ∨ e.isValue = true := by
  unfold decrement_target at h
  split at h
  · obtain rfl : _ = e := by simpa using h
    exact Or.inl rfl
  · split at h
    · obtain rfl : _ = e := by simpa using h
      exact Or.inr rfl
    · exact absurd h (by simp)

theorem eliminate_targets_err {dg : Option Dungeon} {t : DKind} {e : Err}
    (h : eliminate_targets dg t = .error e) : e.isDroll = true := by
  unfold eliminate_targets at h
  split at h
  · obtain rfl : _ = e := by simpa using h
    rfl
  · split at h
    · obtain rfl : _ = e := by simpa using h
      rfl
    · exact absurd h (by simp)

theorem replace_treasure_err {w : World} {k : TKind} {e : Err}
    (h : replace_treasure w k = .error e) : e.isDroll = true := by
  unfold replace_treasure at h
  split at h
  · obtain rfl : _ = e := by simpa using h
    rfl
  · exact absurd h (by simp)

theorem _draw_err {r : Treasure} {g : Rng} {e : Err}
    (h : _draw r g = .error e) :
    e.isAssert = true ∨ e = .indexError := by
  unfold _draw at h
  split at h
  · obtain rfl : _ = e := by simpa using h
    exact Or.inl rfl
  · split at h
    · exact absurd h (by simp)
    · obtain rfl : _ = e := by simpa using h
      exact Or.inr rfl

theorem draw_treasure_err {w : World} {g : Rng} {e : Err}
    (h : draw_treasure w g = .error e) :
    e.isAssert = true ∨ e = .indexError := by
  unfold draw_treasure at h
  cases hd : _draw w.reserve g with
  | error e2 =>
    rw [hd] at h
    obtain rfl : e2 = e := by simpa [Bind.bind, Except.bind] using h
    exact _draw_err hd
  | ok pr =>
    rw [hd] at h
    exact absurd h (by simp [Bind.bind, Except.bind])

theorem drawN_err {n : Nat} {w : World} {g : Rng} {e : Err}
    (h : drawN n w g = .error e) :
    e.isAssert = true ∨ e = .indexError := by
  induction n generalizing w g with
  | zero => exact absurd h (by simp [drawN])
  | succ n ih =>
    unfold drawN at h
    cases hd : draw_treasure w g with
    | error e2 =>
      rw [hd] at h
      obtain rfl : e2 = e := by simpa using h
      exact draw_treasure_err hd
    | ok pr =>
      obtain ⟨wm, gm⟩ := pr
      rw [hd] at h
      exact ih h

theorem _roll_err {dice faces : Nat} {g : Rng} {e : Err}
    (h : _roll dice faces g = .error e) : e = .indexError := by
  induction dice generalizing g with
  | zero => exact absurd h (by simp [_roll])
  | succ n ih =>
    unfold _roll at h
    split at h
    · cases hr : _roll n faces (rngNext g).2 with
      | error e2 =>
        rw [hr] at h
        obtain rfl : e2 = e := by simpa using h
        exact ih hr
      | ok pr => rw [hr] at h; exact absurd h (by simp)
    · obtain rfl : _ = e := by simpa using h
      rfl

theorem roll_party_err {dice : Nat} {g : Rng} {e : Err}
    (h : roll_party dice g = .error e) : e = .indexError := by
  unfold roll_party at h
  split at h
  · exact absurd h (by simp)
  · next e2 heq =>
    obtain rfl : e2 = e := by simpa using h
    exact _roll_err heq

theorem roll_dungeon_err {dice : Int} {g : Rng} {e : Err}
    (h : roll_dungeon dice g = .error e) :
    e.isAssert = true ∨ e = .indexError := by
  unfold roll_dungeon at h
  split at h
  · obtain rfl : _ = e := by simpa using h
    exact Or.inl rfl
  · split at h
    · exact absurd h (by simp)
    · next e2 heq =>
      obtain rfl : e2 = e := by simpa using h
      exact Or.inr (_roll_err heq)

theorem next_delve_err {w : World} {g : Rng} {tr : Party → Party} {e : Err}
    (h : next_delve w g tr = .error e) :
    e.isDroll = true ∨ e = .indexError := by
  unfold next_delve at h
  split at h
  · obtain rfl : _ = e := by simpa using h
    exact Or.inl rfl
  · split at h
    · exact absurd h (by simp)
    · next e2 heq =>
      obtain rfl : e2 = e := by simpa using h
      exact Or.inr (roll_party_err heq)

theorem apply_portal_err {w : World} {e : Err}
    (h : apply_portal w = .error e) : e.isDroll = true := by
  unfold apply_portal at h
  split at h
  · obtain rfl : _ = e := by simpa using h
    rfl
  · cases hr : replace_treasure w .portal with
    | error e2 =>
      rw [hr] at h
      obtain rfl : e2 = e := by simpa using h
      exact replace_treasure_err hr
    | ok wm => rw [hr] at h; exact absurd h (by simp)

theorem replace_treasure_dungeon {w w2 : World} {k : TKind}
    (h : replace_treasure w k = .ok w2) : w2.dungeon = w.dungeon := by
  unfold replace_treasure at h
  split at h
  · exact absurd h (by simp)
  · obtain rfl : _ = w2 := by simpa using h
    rfl

theorem blocking_dragon_some {dg : Option Dungeon}
    (h : blocking_dragon dg = true) : ∃ d, dg = some d := by
  cases dg with
  | none => simp [blocking_dragon, defeated_dungeon, defeated_monsters] at h
  | some d => exact ⟨d, rfl⟩

theorem apply_ring_err {w : World} {e : Err}
    (h : apply_ring w = .error e) : e.isDroll = true := by
  unfold apply_ring at h
  split at h
  · obtain rfl : _ = e := by simpa using h
    rfl
  · next hb =>
    have hb2 : blocking_dragon w.dungeon = true := by
      revert hb; cases blocking_dragon w.dungeon <;> simp
    cases hr : replace_treasure w .ring with
    | error e2 =>
      rw [hr] at h
      obtain rfl : e2 = e := by simpa using h
      exact replace_treasure_err hr
    | ok wm =>
      rw [hr] at h
      simp only [] at h
      obtain ⟨d, hd⟩ := blocking_dragon_some hb2
      rw [show wm.dungeon = some d from (replace_treasure_dungeon hr).trans hd] at h
      exact absurd h (by simp)

theorem retire_finish_err {wm : World} {e : Err}
    (h : retire_finish wm = .error e) : e = .typeError := by
  unfold retire_finish at h
  split at h
  · exact absurd h (by simp)
  · obtain rfl : _ = e := by simpa using h
    rfl

theorem retire_err {w : World} {e : Err} (h : retire w = .error e) :
    e.isDroll = true ∨ e = .typeError := by
  unfold retire at h
  split at h
  · obtain rfl : _ = e := by simpa using h
    exact Or.inl rfl
  · split at h
    · split at h
      · exact Or.inr (retire_finish_err h)
      · obtain rfl : _ = e := by simpa using h
        exact Or.inl rfl
    · split at h
      · split at h
        · exact Or.inr (retire_finish_err h)
        · split at h
          · exact Or.inr (retire_finish_err h)
          · obtain rfl : _ = e := by simpa using h
            exact Or.inl rfl
      · exact Or.inr (retire_finish_err h)

theorem next_dungeon_roll_err {wm : World} {g : Rng} {e : Err}
    (h : next_dungeon_roll wm g = .error e) :
    e.isDroll = true ∨ e.isAssert = true ∨ e = .indexError := by
  unfold next_dungeon_roll at h
  split at h
  · obtain rfl : _ = e := by simpa using h
    exact Or.inl rfl
  · split at h
    · exact absurd h (by simp)
    · next e2 heq =>
      obtain rfl : e2 = e := by simpa using h
      exact Or.inr (roll_dungeon_err heq)

theorem next_dungeon_err {w : World} {g : Rng} {e : Err}
    (h : next_dungeon w g = .error e) :
    e.isDroll = true ∨ e.isAssert = true ∨ e = .indexError := by
  unfold next_dungeon at h
  split at h
  · obtain rfl : _ = e := by simpa using h
    exact Or.inl rfl
  · split at h
    · split at h
      · exact next_dungeon_roll_err h
      · obtain rfl : _ = e := by simpa using h
        exact Or.inl rfl
    · exact next_dungeon_roll_err h

theorem retreat_err {w : World} {e : Err} (h : retreat w = .error e) :
    e.isDroll = true := by
  unfold retreat at h
  split at h
  · obtain rfl : _ = e := by simpa using h
    rfl
  · split at h
    · obtain rfl : _ = e := by simpa using h
      rfl
    · exact absurd h (by simp)

theorem consume_ability_err {w : World} {e : Err}
    (h : consume_ability w = .error e) : e.isDroll = true := by
  unfold consume_ability at h
  split at h
  · obtain rfl : _ = e := by simpa using h
    rfl
  · exact absurd h (by simp)

theorem nop_ability_err {w : World} {g : Rng} {n : TKind} {t : Option PKind}
    {e : Err} (h : nop_ability w g n t = .error e) : e.isDroll = true := by
  unfold nop_ability at h
  split at h
  · obtain rfl : _ = e := by simpa using h
    rfl
  · exact consume_ability_err h

theorem defeat_one_err {w : World} {g : Rng} {hk : PKind} {t : DKind} {e : Err}
    (h : defeat_one w g hk t = .error e) :
    e.isDroll = true ∨ e.isValue = true := by
  unfold defeat_one at h
  cases hp : decrement_hero w.party hk with
  | error e2 =>
    rw [hp] at h
    obtain rfl : e2 = e := by simpa [Bind.bind, Except.bind] using h
    exact Or.inl (decrement_hero_err hp)
  | ok p =>
    rw [hp] at h
    simp only [Bind.bind, Except.bind] at h
    cases hd : decrement_target w.dungeon t with
    | error e2 =>
      rw [hd] at h
      obtain rfl : e2 = e := by simpa using h
      exact decrement_target_err hd
    | ok d => rw [hd] at h; exact absurd h (by simp)

theorem defeat_all_err {w : World} {g : Rng} {hk : PKind} {t : DKind} {e : Err}
    (h : defeat_all w g hk t = .error e) : e.isDroll = true := by
  unfold defeat_all at h
  cases hp : decrement_hero w.party hk with
  | error e2 =>
    rw [hp] at h
    obtain rfl : e2 = e := by simpa [Bind.bind, Except.bind] using h
    exact decrement_hero_err hp
  | ok p =>
    rw [hp] at h
    simp only [Bind.bind, Except.bind] at h
    cases hd : eliminate_targets w.dungeon t with
    | error e2 =>
      rw [hd] at h
      obtain rfl : e2 = e := by simpa using h
      exact eliminate_targets_err hd
    | ok d => rw [hd] at h; exact absurd h (by simp)

theorem defeat_all_plus_err {w : World} {g : Rng} {hk : PKind} {t : DKind}
    {ad : List DKind} {e : Err}
    (h : defeat_all_plus_additional w g hk t ad = .error e) :
    e.isDroll = true ∨ e.isValue = true := by
  unfold defeat_all_plus_additional at h
  cases ha : defeat_all w g hk t with
  | error e2 =>
    rw [ha] at h
    obtain rfl : e2 = e := by simpa [Bind.bind, Except.bind] using h
    exact Or.inl (defeat_all_err ha)
  | ok wm =>
    rw [ha] at h
    simp only [Bind.bind, Except.bind] at h
    split at h
    · split at h
      · obtain rfl : _ = e := by simpa using h
        exact Or.inl rfl
      · exact absurd h (by simp)
    · split at h
      · obtain rfl : _ = e := by simpa using h
        exact Or.inl rfl
      · cases hi : increment_hero wm.party hk with
        | error e2 =>
          rw [hi] at h
          obtain rfl : e2 = e := by simpa using h
          exact Or.inl (increment_hero_err hi)
        | ok p =>
          rw [hi] at h
          simp only [] at h
          exact defeat_one_err h

theorem open_one_err {w : World} {g : Rng} {hk : PKind} {t : DKind} {e : Err}
    (h : open_one w g hk t = .error e) :
    e.isDroll = true ∨ e.isValue = true ∨ e.isAssert = true ∨ e = .indexError := by
  unfold open_one at h
  split at h
  · obtain rfl : _ = e := by simpa using h
    exact Or.inl rfl
  · simp only [Bind.bind, Except.bind] at h
    cases hd : draw_treasure w g with
    | error e2 =>
      rw [hd] at h
      obtain rfl : e2 = e := by simpa using h
      rcases draw_treasure_err hd with ha | hi
      · exact Or.inr (Or.inr (Or.inl ha))
      · exact Or.inr (Or.inr (Or.inr hi))
    | ok pr =>
      obtain ⟨wm, gm⟩ := pr
      rw [hd] at h
      simp only [] at h
      cases hp : decrement_hero w.party hk with
      | error e2 =>
        rw [hp] at h
        obtain rfl : e2 = e := by simpa using h
        exact Or.inl (decrement_hero_err hp)
      | ok p =>
        rw [hp] at h
        simp only [] at h
        cases ht : decrement_target w.dungeon t with
        | error e2 =>
          rw [ht] at h
          obtain rfl : e2 = e := by simpa using h
          rcases decrement_target_err ht with hx | hx
          · exact Or.inl hx
          · exact Or.inr (Or.inl hx)
        | ok d => rw [ht] at h; exact absurd h (by simp)

theorem open_all_err {w : World} {g : Rng} {hk : PKind} {t : DKind} {e : Err}
    (h : open_all w g hk t = .error e) :
    e.isDroll = true ∨ e = .attributeError ∨ e.isAssert = true ∨ e = .indexError := by
  unfold open_all at h
  split at h
  · obtain rfl : _ = e := by simpa using h
    exact Or.inl rfl
  · split at h
    · obtain rfl : _ = e := by simpa using h
      exact Or.inr (Or.inl rfl)
    · next dgn hdgn =>
      split at h
      · obtain rfl : _ = e := by simpa using h
        exact Or.inl rfl
      · simp only [Bind.bind, Except.bind] at h
        cases hd : drawN (dgn.dget t) w g with
        | error e2 =>
          rw [hd] at h
          obtain rfl : e2 = e := by simpa using h
          rcases drawN_err hd with ha | hi
          · exact Or.inr (Or.inr (Or.inl ha))
          · exact Or.inr (Or.inr (Or.inr hi))
        | ok pr =>
          obtain ⟨wm, gm⟩ := pr
          rw [hd] at h
          simp only [] at h
          cases hp : decrement_hero wm.party hk with
          | error e2 =>
            rw [hp] at h
            obtain rfl : e2 = e := by simpa using h
            exact Or.inl (decrement_hero_err hp)
          | ok p =>
            rw [hp] at h
            simp only [] at h
            cases ht : eliminate_targets wm.dungeon t with
            | error e2 =>
              rw [ht] at h
              obtain rfl : e2 = e := by simpa using h
              exact Or.inl (eliminate_targets_err ht)
            | ok d => rw [ht] at h; exact absurd h (by simp)

theorem quaff_err {w : World} {g : Rng} {hk : PKind} {t : DKind}
    {rs : List PKind} {e : Err} (h : quaff w g hk t rs = .error e) :
    e.isDroll = true ∨ e = .attributeError := by
  unfold quaff at h
  split at h
  · obtain rfl : _ = e := by simpa using h
    exact Or.inr rfl
  · next dgn hdgn =>
    simp only [Bind.bind, Except.bind] at h
    split at h
    · obtain rfl : _ = e := by simpa using h
      exact Or.inl rfl
    · split at h
      · obtain rfl : _ = e := by simpa using h
        exact Or.inl rfl
      · split at h
        · obtain rfl : _ = e := by simpa using h
          exact Or.inl rfl
        · cases hp : decrement_hero w.party hk with
          | error e2 =>
            rw [hp] at h
            obtain rfl : e2 = e := by simpa using h
            exact Or.inl (decrement_hero_err hp)
          | ok p =>
            rw [hp] at h
            simp only [] at h
            cases ht : eliminate_targets w.dungeon t with
            | error e2 =>
              rw [ht] at h
              obtain rfl : e2 = e := by simpa using h
              exact Or.inl (eliminate_targets_err ht)
            | ok d => rw [ht] at h; exact absurd h (by simp)

theorem reduceTargets_err {ts : List DKind} {dg : Option Dungeon} {e : Err}
    (h : reduceTargets dg ts = .error e) :
    e.isDroll = true ∨ e.isValue = true := by
  induction ts generalizing dg with
  | nil => exact absurd h (by simp [reduceTargets])
  | cons t ts ih =>
    unfold reduceTargets at h
    split at h
    · obtain rfl : _ = e := by simpa using h
      exact Or.inl rfl
    · cases hdec : decrement_target dg t with
      | error e2 =>
        rw [hdec] at h
        obtain rfl : e2 = e := by simpa using h
        exact decrement_target_err hdec
      | ok d => rw [hdec] at h; exact ih h

theorem reroll_err {w : World} {g : Rng} {hk : PKind} {ts : List DKind}
    {e : Err} (h : reroll w g hk ts = .error e) :
    e.isDroll = true ∨ e.isValue = true ∨ e.isAssert = true ∨ e = .indexError := by
  unfold reroll at h
  split at h
  · obtain rfl : _ = e := by simpa using h
    exact Or.inl rfl
  · next hne =>
    simp only [Bind.bind, Except.bind] at h
    cases hr : reduceTargets w.dungeon ts with
    | error e2 =>
      rw [hr] at h
      obtain rfl : e2 = e := by simpa using h
      rcases reduceTargets_err hr with hx | hx
      · exact Or.inl hx
      · exact Or.inr (Or.inl hx)
    | ok red =>
      rw [hr] at h
      simp only [] at h
      split at h
      · next rolled g3 heq =>
        cases hp : decrement_hero w.party hk with
        | error e2 =>
          rw [hp] at h
          obtain rfl : e2 = e := by simpa using h
          exact Or.inl (decrement_hero_err hp)
        | ok p =>
          rw [hp] at h
          simp only [] at h
          split at h
          · exact absurd h (by simp)
          · next hnone =>
            exfalso
            cases ts with
            | nil => exact hne rfl
            | cons t0 ts2 =>
              cases hwd : w.dungeon with
              | none =>
                rw [hwd] at hr
                unfold reduceTargets at hr
                split at hr
                · exact absurd hr (by simp)
                · unfold decrement_target at hr
                  simp only [] at hr
                  exact absurd hr (by simp)
              | some d0 =>
                rw [hwd] at hr
                obtain ⟨dr, hdr, -⟩ := reduceTargets_sum hr
                exact absurd hdr (by simp)
      · next e2 heq =>
        obtain rfl : e2 = e := by simpa using h
        rcases roll_dungeon_err heq with ha | hi
        · exact Or.inr (Or.inr (Or.inl ha))
        · exact Or.inr (Or.inr (Or.inr hi))

theorem defeat_dragon_heroes_err {hs : List PKind} {e : Err}
    (h : defeat_dragon_heroes hs = .error e) : e.isDroll = true := by
  unfold defeat_dragon_heroes at h
  split at h
  · obtain rfl : _ = e := by simpa using h
    rfl
  · split at h
    · obtain rfl : _ = e := by simpa using h
      rfl
    · split at h
      · obtain rfl : _ = e := by simpa using h
        rfl
      · exact absurd h (by simp)

theorem defeat_dragon_heroes_ok {hs : List PKind} {b : Bool}
    (h : defeat_dragon_heroes hs = .ok b) : b = true := by
  unfold defeat_dragon_heroes at h
  split at h
  · exact absurd h (by simp)
  · split at h
    · exact absurd h (by simp)
    · split at h
      · exact absurd h (by simp)
      · obtain rfl : true = b := by simpa using h
        rfl

theorem decHeroes_err {p : Party} {hs : List PKind} {e : Err}
    (h : decHeroes p hs = .error e) : e.isDroll = true := by
  induction hs generalizing p with
  | nil => exact absurd h (by simp [decHeroes])
  | cons hk hs ih =>
    unfold decHeroes at h
    split at h
    · next p2 heq => exact ih h
    · next e2 heq =>
      obtain rfl : e2 = e := by simpa using h
      exact decrement_hero_err heq

theorem defeat_dragon_err {w : World} {g : Rng} {hk : PKind} {t : DKind}
    {os : List PKind} {e : Err}
    (h : defeat_dragon defeat_dragon_heroes w g hk t os = .error e) :
    e.isDroll = true ∨ e = .attributeError ∨ e.isAssert = true ∨ e = .indexError := by
  unfold defeat_dragon at h
  split at h
  · obtain rfl : _ = e := by simpa using h
    exact Or.inr (Or.inl rfl)
  · next dgn hdgn =>
    split at h
    · obtain rfl : _ = e := by simpa using h
      exact Or.inl rfl
    · split at h
      · obtain rfl : _ = e := by simpa using h
        exact Or.inl rfl
      · simp only [Bind.bind, Except.bind] at h
        cases hp : decrement_hero w.party hk with
        | error e2 =>
          rw [hp] at h
          obtain rfl : e2 = e := by simpa using h
          exact Or.inl (decrement_hero_err hp)
        | ok p0 =>
          rw [hp] at h
          simp only [] at h
          cases hq : decHeroes p0 os with
          | error e2 =>
            rw [hq] at h
            obtain rfl : e2 = e := by simpa using h
            exact Or.inl (decHeroes_err hq)
          | ok p =>
            rw [hq] at h
            simp only [] at h
            cases hv : defeat_dragon_heroes (hk :: os) with
            | error e2 =>
              rw [hv] at h
              obtain rfl : e2 = e := by simpa using h
              exact Or.inl (defeat_dragon_heroes_err hv)
            | ok b =>
              rw [hv] at h
              simp only [] at h
              rw [defeat_dragon_heroes_ok hv] at h
              simp only [Bool.not_true, Bool.false_eq_true, if_false] at h
              cases hd : draw_treasure w g with
              | error e2 =>
                rw [hd] at h
                obtain rfl : e2 = e := by simpa using h
                rcases draw_treasure_err hd with ha | hi
                · exact Or.inr (Or.inr (Or.inl ha))
                · exact Or.inr (Or.inr (Or.inr hi))
              | ok pr =>
                obtain ⟨wm, gm⟩ := pr
                rw [hd] at h
                simp only [] at h
                cases ht : eliminate_targets w.dungeon t with
                | error e2 =>
                  rw [ht] at h
                  obtain rfl : e2 = e := by simpa using h
                  exact Or.inl (eliminate_targets_err ht)
                | ok d => rw [ht] at h; exact absurd h (by simp)

theorem bait_finish_err {wm : World} {t : DKind} {e : Err}
    (h : bait_finish wm t = .error e) : e.isDroll = true := by
  unfold bait_finish at h
  split at h
  · obtain rfl : _ = e := by simpa using h
    rfl
  · split at h
    · exact absurd h (by simp)
    · obtain rfl : _ = e := by simpa using h
      rfl

theorem bait_dragon_err {w : World} {g : Rng} {n : TKind} {t : Option DKind}
    {rq : Bool} {e : Err} (h : bait_dragon w g n t rq = .error e) :
    e.isDroll = true := by
  unfold bait_dragon at h
  split at h
  · obtain rfl : _ = e := by simpa using h
    rfl
  · cases hx : (if rq then replace_treasure w n else .ok w) with
    | error e2 =>
      rw [hx] at h
      obtain rfl : e2 = e := by simpa using h
      cases hrq : rq with
      | true => subst hrq; simp only [if_true] at hx; exact replace_treasure_err hx
      | false => subst hrq; exact absurd hx (by simp)
    | ok wm =>
      rw [hx] at h
      exact bait_finish_err h

theorem elixir_err {w : World} {g : Rng} {n : TKind} {t : PKind} {e : Err}
    (h : elixir w g n t = .error e) : e.isDroll = true := by
  unfold elixir at h
  simp only [Bind.bind, Except.bind] at h
  cases hr : replace_treasure w n with
  | error e2 =>
    rw [hr] at h
    obtain rfl : e2 = e := by simpa using h
    exact replace_treasure_err hr
  | ok wm =>
    rw [hr] at h
    simp only [] at h
    cases hp : increment_hero wm.party t with
    | error e2 =>
      rw [hp] at h
      obtain rfl : e2 = e := by simpa using h
      exact increment_hero_err hp
    | ok p => rw [hp] at h; exact absurd h (by simp)

/-- Counterexample to C3: with an active dungeon holding no goblin,
`defeat_one` fails with a `ValueError` from `__decrement_target`,
not a `DrollError`. -/
theorem error_taxonomy_counterexample :
    defeat_one CW3 [] PKind.fighter DKind.goblin
      = .error (.valueError "Require at least one target")
    ∧ (Err.valueError "Require at least one target").isDroll = false :=
  ⟨rfl, rfl⟩

/-- C3 amended: failures of the engine operations raise `DrollError`,
except that `__decrement_target` raises `ValueError` when an active dungeon
lacks the target (reachable from `defeat_one`, `defeat_all_plus_additional`,
`open_one`, `reroll`), the draw/roll asserts raise `AssertionError`, an
out-of-range randrange index raises `IndexError`, a missing dungeon raises
`AttributeError` (`quaff`, `open_all`, `defeat_dragon`) and retiring with
no recorded depth raises `TypeError`; a failing operation returns no new
World, so the caller's World is unchanged by construction. -/
theorem error_taxonomy_amended :
    (∀ w e, retreat w = .error e → e.isDroll = true) ∧
    (∀ w g tr e, next_delve w g tr = .error e →
      e.isDroll = true ∨ e = Err.indexError) ∧
    (∀ w k e, replace_treasure w k = .error e → e.isDroll = true) ∧
    (∀ w e, apply_ring w = .error e → e.isDroll = true) ∧
    (∀ w e, apply_portal w = .error e → e.isDroll = true) ∧
    (∀ w e, retire w = .error e → e.isDroll = true ∨ e = Err.typeError) ∧
    (∀ w g e, next_dungeon w g = .error e →
      e.isDroll = true ∨ e.isAssert = true ∨ e = Err.indexError) ∧
    (∀ w g e, draw_treasure w g = .error e →
      e.isAssert = true ∨ e = Err.indexError) ∧
    (∀ w g hk t e, defeat_one w g hk t = .error e →
      e.isDroll = true ∨ e.isValue = true) ∧
    (∀ w g hk t e, defeat_all w g hk t = .error e → e.isDroll = true) ∧
    (∀ w g hk t ad e, defeat_all_plus_additional w g hk t ad = .error e →
      e.isDroll = true ∨ e.isValue = true) ∧
    (∀ w g hk t e, open_one w g hk t = .error e →
      e.isDroll = true ∨ e.isValue = true ∨ e.isAssert = true ∨ e = Err.indexError) ∧
    (∀ w g hk t e, open_all w g hk t = .error e →
      e.isDroll = true ∨ e = Err.attributeError ∨ e.isAssert = true ∨ e = Err.indexError) ∧
    (∀ w g hk t rs e, quaff w g hk t rs = .error e →
      e.isDroll = true ∨ e = Err.attributeError) ∧
    (∀ w g hk ts e, reroll w g hk ts = .error e →
      e.isDroll = true ∨ e.isValue = true ∨ e.isAssert = true ∨ e = Err.indexError) ∧
    (∀ w g hk t os e, defeat_dragon defeat_dragon_heroes w g hk t os = .error e →
      e.isDroll = true ∨ e = Err.attributeError ∨ e.isAssert = true ∨ e = Err.indexError) ∧
    (∀ w g n t rq e, bait_dragon w g n t rq = .error e → e.isDroll = true) ∧
    (∀ w g n t e, elixir w g n t = .error e → e.isDroll = true) ∧
    (∀ w e, consume_ability w = .error e → e.isDroll = true) ∧
    (∀ w g n t e, nop_ability w g n t = .error e → e.isDroll = true) :=
  ⟨fun _ _ h => retreat_err h,
   fun _ _ _ _ h => next_delve_err h,
   fun _ _ _ h => replace_treasure_err h,
   fun _ _ h => apply_ring_err h,
   fun _ _ h => apply_portal_err h,
   fun _ _ h => retire_err h,
   fun _ _ _ h => next_dungeon_err h,
   fun _ _ _ h => draw_treasure_err h,
   fun _ _ _ _ _ h => defeat_one_err h,
   fun _ _ _ _ _ h => defeat_all_err h,
   fun _ _ _ _ _ _ h => defeat_all_plus_err h,
   fun _ _ _ _ _ h => open_one_err h,
   fun _ _ _ _ _ h => open_all_err h,
   fun _ _ _ _ _ _ h => quaff_err h,
   fun _ _ _ _ _ h => reroll_err h,
   fun _ _ _ _ _ _ h => defeat_dragon_err h,
   fun _ _ _ _ _ _ h => bait_dragon_err h,
   fun _ _ _ _ _ h => elixir_err h,
   fun _ _ h => consume_ability_err h,
   fun _ _ _ _ _ h => nop_ability_err h⟩

/-- Counterexample to C2: every stated condition holds (length-3 dragon,
no monsters, three distinct non-scroll heroes each available), yet the
call fails because the reserve is exhausted and the treasure draw asserts. -/
theorem defeat_dragon_counterexample :
    DDCond D3 P0 PKind.fighter PKind.cleric PKind.mage ∧
    defeat_dragon defeat_dragon_heroes CWD [0] PKind.fighter DKind.dragon
        [PKind.cleric, PKind.mage]
      = .error (.assertionError "Presently no items remaining in the reserve") :=
  ⟨by unfold DDCond; decide, rfl⟩

/-- Inversion for a successful hero decrement over an active party. -/
theorem decrement_hero_some_ok {p : Party} {hk : PKind} {p2 : Party}
    (h : decrement_hero (some p) hk = .ok p2) :
    1 ≤ p.pget hk ∧ p2 = p.pset hk (p.pget hk - 1) := by
  unfold decrement_hero at h
  simp only [] at h
  split at h
  · exact absurd h (by simp)
  · next hz =>
    refine ⟨by omega, ?_⟩
    obtain heq : _ = p2 := by simpa using h
    exact heq.symm

/-- Inversion for a passing base dragon-hero validation. -/
theorem defeat_dragon_heroes_ok_inv {hs : List PKind} {b : Bool}
    (h : defeat_dragon_heroes hs = .ok b) :
    hs.contains .scroll = false ∧ hs.length = 3 ∧ hs.dedup.length = 3 := by
  unfold defeat_dragon_heroes at h
  split at h
  · exact absurd h (by simp)
  · next hc =>
    split at h
    · exact absurd h (by simp)
    · next hl =>
      split at h
      · exact absurd h (by simp)
      · next hdd =>
        refine ⟨?_, by omega, by omega⟩
        revert hc; cases hs.contains PKind.scroll <;> simp

/-- Witness for C3 amended: a retire failure at depth zero, a defeat_one
failure on a missing target and a draw failure on a one-item reserve. -/
theorem error_taxonomy_amended_witness :
    ((Err.droll "Descend at least once prior to retiring.").isDroll = true
      ∨ Err.droll "Descend at least once prior to retiring." = Err.typeError) ∧
    ((Err.valueError "Require at least one target").isDroll = true
      ∨ (Err.valueError "Require at least one target").isValue = true) ∧
    ((Err.assertionError "Presently no items remaining in the reserve").isAssert = true
      ∨ Err.assertionError "Presently no items remaining in the reserve"
          = Err.indexError) :=
  ⟨error_taxonomy_amended.2.2.2.2.2.1 WDepth0 _ rfl,
   error_taxonomy_amended.2.2.2.2.2.2.2.2.1 CW3 [] PKind.fighter DKind.goblin _ rfl,
   error_taxonomy_amended.2.2.2.2.2.2.2.1 WOne [0] _ rfl⟩

/-- The two-step hero loop of `defeat_dragon`, fully evaluated under the
distinctness and availability conditions. -/
theorem decHeroes_pair_eval {p : Party} {h0 o1 o2 : PKind}
    (h01 : h0 ≠ o1) (h02 : h0 ≠ o2) (h12 : o1 ≠ o2)
    (hp1 : 1 ≤ p.pget o1) (hp2 : 1 ≤ p.pget o2) :
    decHeroes (p.pset h0 (p.pget h0 - 1)) [o1, o2]
      = .ok (DDParty p h0 o1 o2) := by
  have n1 : ¬ o1 = h0 := fun hh => h01 hh.symm
  have n2 : ¬ o2 = h0 := fun hh => h02 hh.symm
  have n3 : ¬ o2 = o1 := fun hh => h12 hh.symm
  have e1 : (p.pset h0 (p.pget h0 - 1)).pget o1 = p.pget o1 := by
    rw [pget_pset, if_neg n1]
  have e2 : ((p.pset h0 (p.pget h0 - 1)).pset o1
      ((p.pset h0 (p.pget h0 - 1)).pget o1 - 1)).pget o2 = p.pget o2 := by
    rw [pget_pset, if_neg n3, pget_pset, if_neg n2]
  have e2x : ((p.pset h0 (p.pget h0 - 1)).pset o1 (p.pget o1 - 1)).pget o2
      = p.pget o2 := by
    rw [pget_pset, if_neg n3, pget_pset, if_neg n2]
  unfold decHeroes decrement_hero
  simp only []
  rw [e1, if_neg (by omega)]
  simp only []
  unfold decHeroes decrement_hero
  simp only []
  rw [e2x, if_neg (by omega)]
  simp only []
  unfold decHeroes DDParty
  simp only []
  rw [e1, e2x]

/-- C2 amended: over an active dungeon and party, and provided the reserve
holds at least two items and randrange yields an in-range index, the base
`defeat_dragon` succeeds exactly when the dragon is at length 3 or more,
all non-dragon monsters are defeated, exactly three pairwise-distinct
non-scroll heroes are specified (the acting hero plus two others) and each
is available in the party; on success the three heroes are spent, exactly
one treasure is drawn from the reserve, experience grows by one and the
dragon face is zeroed. -/
theorem defeat_dragon_spec (w : World) (v : Nat) (rest : Rng)
    (h0 o1 o2 : PKind) (d : Dungeon) (p : Party)
    (hd : w.dungeon = some d) (hp : w.party = some p)
    (hres : 2 ≤ tsum w.reserve) (hv : v < tsum w.reserve) :
    (DDCond d p h0 o1 o2 →
      ∃ k, 1 ≤ w.reserve.tget k ∧
        defeat_dragon defeat_dragon_heroes w (v :: rest) h0 .dragon [o1, o2]
          = .ok (DDResult w d p h0 o1 o2 k, rest)) ∧
    (∀ w2 g2, defeat_dragon defeat_dragon_heroes w (v :: rest) h0 .dragon [o1, o2]
        = .ok (w2, g2) → DDCond d p h0 o1 o2) ∧
    (∀ os : List PKind, os.length ≠ 2 →
      ∀ w2 g2, defeat_dragon defeat_dragon_heroes w (v :: rest) h0 .dragon os
        ≠ .ok (w2, g2)) ∧
    (DDCond d p h0 o1 o2 → ∀ j,
      (DDParty p h0 o1 o2).pget j
        = p.pget j - (if j = h0 ∨ j = o1 ∨ j = o2 then 1 else 0)) := by
  refine ⟨?_, ?_, ?_, ?_⟩
  · rintro ⟨hdr3, hg, hs, ho, hsc0, hsc1, hsc2, h01, h02, h12, hq0, hq1, hq2⟩
    obtain ⟨k, hk, hdraw⟩ := draw_treasure_ok w v rest hres hv
    refine ⟨k, hk, ?_⟩
    unfold defeat_dragon
    rw [hd]
    simp only []
    rw [if_neg (by omega)]
    have hmon : defeated_monsters (some d) = true := by
      simp [defeated_monsters]; omega
    rw [hmon]
    simp only [Bool.not_true, Bool.false_eq_true, if_false]
    simp only [Bind.bind, Except.bind]
    rw [hp]
    unfold decrement_hero
    simp only []
    rw [if_neg (by omega)]
    simp only []
    rw [decHeroes_pair_eval h01 h02 h12 hq1 hq2]
    simp only []
    have hval : defeat_dragon_heroes [h0, o1, o2] = .ok true := by
      unfold defeat_dragon_heroes
      rw [if_neg ?hcontains, if_neg (by simp), if_neg ?hdedup]
      case hcontains =>
        simp [List.contains]
        exact ⟨fun hh => hsc0 hh.symm, fun hh => hsc1 hh.symm,
               fun hh => hsc2 hh.symm⟩
      case hdedup =>
        rw [List.dedup_eq_self.mpr (by simp [List.nodup_cons, h01, h02, h12])]
        simp
    rw [hval]
    simp only [Bool.not_true, Bool.false_eq_true, if_false]
    rw [hdraw]
    simp only []
    unfold eliminate_targets
    simp only [Dungeon.dget]
    rw [if_neg (by omega)]
    unfold DDResult
    rfl
  · intro w2 g2 h
    unfold defeat_dragon at h
    rw [hd] at h
    simp only [] at h
    by_cases hdr : d.dragon < 3
    · rw [if_pos hdr] at h; exact absurd h (by simp)
    · rw [if_neg hdr] at h
      by_cases hmon : (!defeated_monsters (some d)) = true
      · rw [if_pos hmon] at h; exact absurd h (by simp)
      · rw [if_neg hmon] at h
        have hmt : defeated_monsters (some d) = true := by
          revert hmon; cases defeated_monsters (some d) <;> simp
        have hsum : d.goblin + d.skeleton + d.ooze = 0 := by
          simpa [defeated_monsters] using hmt
        simp only [Bind.bind, Except.bind] at h
        rw [hp] at h
        cases hdec1 : decrement_hero (some p) h0 with
        | error e => rw [hdec1] at h; exact absurd h (by simp)
        | ok p1 =>
          rw [hdec1] at h
          simp only [] at h
          obtain ⟨hq0, rfl⟩ := decrement_hero_some_ok hdec1
          cases hdec2 : decHeroes (p.pset h0 (p.pget h0 - 1)) [o1, o2] with
          | error e => rw [hdec2] at h; exact absurd h (by simp)
          | ok p3 =>
            rw [hdec2] at h
            simp only [] at h
            have hav : 1 ≤ p.pget o1 ∧ 1 ≤ p.pget o2 := by
              unfold decHeroes at hdec2
              cases hd1 : decrement_hero (some (p.pset h0 (p.pget h0 - 1))) o1 with
              | error e => rw [hd1] at hdec2; exact absurd hdec2 (by simp)
              | ok p2 =>
                rw [hd1] at hdec2
                obtain ⟨ha1, rfl⟩ := decrement_hero_some_ok hd1
                unfold decHeroes at hdec2
                cases hd2 : decrement_hero
                    (some ((p.pset h0 (p.pget h0 - 1)).pset o1
                      ((p.pset h0 (p.pget h0 - 1)).pget o1 - 1))) o2 with
                | error e => rw [hd2] at hdec2; exact absurd hdec2 (by simp)
                | ok p4 =>
                  obtain ⟨ha2, rfl⟩ := decrement_hero_some_ok hd2
                  rw [pget_pset] at ha1
                  rw [pget_pset] at ha2
                  constructor
                  · by_cases e1 : o1 = h0
                    · rw [if_pos e1] at ha1; rw [e1]; omega
                    · rw [if_neg e1] at ha1; omega
                  · by_cases e2 : o2 = o1
                    · rw [if_pos e2] at ha2
                      rw [pget_pset] at ha2
                      by_cases e1 : o1 = h0
                      · rw [if_pos e1] at ha2; rw [e2, e1]; omega
                      · rw [if_neg e1] at ha2; rw [e2]; omega
                    · rw [if_neg e2, pget_pset] at ha2
                      by_cases e1 : o2 = h0
                      · rw [if_pos e1] at ha2; rw [e1]; omega
                      · rw [if_neg e1] at ha2; omega
            cases hval : defeat_dragon_heroes (h0 :: [o1, o2]) with
            | error e => rw [hval] at h; exact absurd h (by simp)
            | ok b =>
              obtain ⟨hcon, -, hded⟩ := defeat_dragon_heroes_ok_inv hval
              have hnodup : ([h0, o1, o2] : List PKind).Nodup := by
                have hsub := List.dedup_sublist ([h0, o1, o2] : List PKind)
                have heq : ([h0, o1, o2] : List PKind).dedup = [h0, o1, o2] :=
                  hsub.eq_of_length (by rw [hded]; rfl)
                exact List.dedup_eq_self.mp heq
              simp only [List.nodup_cons, List.mem_cons, List.mem_singleton,
                List.not_mem_nil, or_false, not_or] at hnodup
              have hscroll : h0 ≠ PKind.scroll ∧ o1 ≠ PKind.scroll
                  ∧ o2 ≠ PKind.scroll := by
                revert hcon
                simp [List.contains]
                intro a1 a2 a3
                exact ⟨fun hh => a1 hh.symm, fun hh => a2 hh.symm,
                       fun hh => a3 hh.symm⟩
              exact ⟨by omega, by omega, by omega, by omega,
                hscroll.1, hscroll.2.1, hscroll.2.2,
                hnodup.1.1, hnodup.1.2, hnodup.2.1, hq0, hav.1, hav.2⟩
  · intro os hlen w2 g2 h
    unfold defeat_dragon at h
    rw [hd] at h
    simp only [] at h
    split at h
    · exact absurd h (by simp)
    · split at h
      · exact absurd h (by simp)
      · simp only [Bind.bind, Except.bind] at h
        cases hdec1 : decrement_hero w.party h0 with
        | error e => rw [hdec1] at h; exact absurd h (by simp)
        | ok p1 =>
          rw [hdec1] at h
          simp only [] at h
          cases hdec2 : decHeroes p1 os with
          | error e => rw [hdec2] at h; exact absurd h (by simp)
          | ok p3 =>
            rw [hdec2] at h
            simp only [] at h
            cases hval : defeat_dragon_heroes (h0 :: os) with
            | error e => rw [hval] at h; exact absurd h (by simp)
            | ok b =>
              obtain ⟨-, hl3, -⟩ := defeat_dragon_heroes_ok_inv hval
              simp only [List.length_cons] at hl3
              omega
  · rintro ⟨-, -, -, -, -, -, -, h01, h02, h12, hq0, hq1, hq2⟩ j
    have n1 : ¬ o1 = h0 := fun hh => h01 hh.symm
    have n2 : ¬ o2 = h0 := fun hh => h02 hh.symm
    have n3 : ¬ o2 = o1 := fun hh => h12 hh.symm
    unfold DDParty
    simp only [pget_pset, if_neg n1, if_neg n2, if_neg n3]
    by_cases e2 : j = o2
    · subst e2
      rw [if_pos rfl]
      simp [n3, n2]
    · rw [if_neg e2]
      by_cases e1 : j = o1
      · subst e1
        rw [if_pos rfl]
        simp [n1, e2]
      · rw [if_neg e1]
        by_cases e0 : j = h0
        · subst e0
          rw [if_pos rfl]
          simp [e1, e2]
        · rw [if_neg e0]
          simp [e0, e1, e2]

/-- Witness for C2 amended: fighter, cleric and mage slay a length-3
dragon over the full reserve. -/
theorem defeat_dragon_spec_witness :
    ∃ k, 1 ≤ CWDD.reserve.tget k ∧
      defeat_dragon defeat_dragon_heroes CWDD [0] PKind.fighter DKind.dragon
          [PKind.cleric, PKind.mage]
        = .ok (DDResult CWDD D3 P0 PKind.fighter PKind.cleric PKind.mage k, []) :=
  (defeat_dragon_spec CWDD 0 [] .fighter .cleric .mage D3 P0 rfl rfl
      (by decide) (by decide)).1 (by unfold DDCond; decide)

end Droll
